import Mathlib

/-!
Shallow embedding of the hexclaude map/turn state engine
(`src/mapState.js`, Unit class from `src/src/viewState.js`).

Modelling conventions:
* JS numbers that hold integer game data are `Int` (positions may be `-1`).
* JS object identity for units is modelled by an arena: unit ids (`Nat`)
  with a field function `unitOf : Nat → GameUnit`; cells store `Option Nat`.
* Nullable function arguments are `Option _`; `null` is `none`.
* Mutating functions become state transformers `MapState → MapState × result`.
* The rendering coordinates `x`, `y` of a cell (floats, written at grid
  construction and never read by any game-logic operation) are omitted.
-/

namespace Hexclaude

/-- One grid cell, as built by `initializeCellStates` in `src/mapState.js`. -/
structure Cell where
  rowIndex : Int
  cellIndex : Int
  isVisible : Bool
  isActive : Bool
  isHighlighted : Bool
  unit : Option Nat
deriving Repr, DecidableEq

/-- The `Unit` class of `src/src/viewState.js` (fields only). -/
structure GameUnit where
  utype : String
  owner : String
  health : Int
  maxHealth : Int
  attack : Int
  movement : Int
  movementRemaining : Int
  hasAttacked : Bool
  position : Int × Int
deriving Repr, DecidableEq

/-- The `Unit` constructor: `new Unit(type, owner, health, attack, movement)`. -/
def mkUnit (utype owner : String) (health attack movement : Int) : GameUnit :=
  { utype := utype, owner := owner, health := health, maxHealth := health,
    attack := attack, movement := movement, movementRemaining := movement,
    hasAttacked := false, position := (-1, -1) }

/-- `Unit.resetTurn`. -/
def GameUnit.resetTurn (u : GameUnit) : GameUnit :=
  { u with movementRemaining := u.movement, hasAttacked := false }

/-- `Unit.takeDamage(amount)`: clamps health at 0, returns whether still alive. -/
def GameUnit.takeDamage (u : GameUnit) (amount : Int) : GameUnit × Bool :=
  let u' := { u with health := max 0 (u.health - amount) }
  (u', decide (0 < u'.health))

/-- `Unit.heal(amount)`: clamps health at `maxHealth`. -/
def GameUnit.heal (u : GameUnit) (amount : Int) : GameUnit :=
  { u with health := min u.maxHealth (u.health + amount) }

/-- `Unit.move(row, col, cost)`: succeeds iff `cost <= movementRemaining`;
on success sets `position` and decrements `movementRemaining` by `cost`. -/
def GameUnit.move (u : GameUnit) (row col cost : Int) : GameUnit × Bool :=
  if cost ≤ u.movementRemaining then
    ({ u with position := (row, col), movementRemaining := u.movementRemaining - cost }, true)
  else (u, false)

/-- `Unit.canAttack()`. -/
def GameUnit.canAttack (u : GameUnit) : Bool :=
  !u.hasAttacked

/-- `Unit.performAttack()`: sets `hasAttacked` and returns `attack` if
`canAttack()`, else returns 0 with no mutation. -/
def GameUnit.performAttack (u : GameUnit) : GameUnit × Int :=
  if u.canAttack then ({ u with hasAttacked := true }, u.attack) else (u, 0)

/-- `createUnit(type, owner)` from `src/src/viewState.js`. -/
def createUnit (utype owner : String) : GameUnit :=
  if utype = "soldier" then mkUnit utype owner 10 3 2
  else if utype = "archer" then mkUnit utype owner 7 4 2
  else if utype = "knight" then mkUnit utype owner 12 5 3
  else if utype = "mage" then mkUnit utype owner 6 6 1
  else mkUnit utype owner 5 2 2

/-! ## Grid -/

abbrev Grid := List (List Cell)

/-- In-place update of the `n`-th element of a list (model of mutating
`array[n]` through a reference; out-of-range is the identity). -/
def listModify {α : Type} (f : α → α) : Nat → List α → List α
  | _, [] => []
  | 0, x :: xs => f x :: xs
  | n + 1, x :: xs => x :: listModify f n xs

/-- Raw bounds-checked lookup `mapState.cells[rowIndex][cellIndex]`
(the bounds checks shared by `cellExists` and `toggleCellState`). -/
def getCellRaw (cells : Grid) (r c : Int) : Option Cell :=
  if 0 ≤ r then
    match cells[r.toNat]? with
    | some row => if 0 ≤ c then row[c.toNat]? else none
    | none => none
  else none

/-- `cellExists(rowIndex, cellIndex)`: in bounds and visible. -/
def cellExists (cells : Grid) (r c : Int) : Bool :=
  match getCellRaw cells r c with
  | some cell => cell.isVisible
  | none => false

/-- `getCell(rowIndex, cellIndex)`: the cell if `cellExists`, else null. -/
def getCell (cells : Grid) (r c : Int) : Option Cell :=
  if cellExists cells r c then getCellRaw cells r c else none

/-- Write through a cell reference obtained from the grid: replace the cell
at `(r, c)` by `f` applied to it. -/
def setCell (cells : Grid) (r c : Int) (f : Cell → Cell) : Grid :=
  if 0 ≤ r ∧ 0 ≤ c then
    listModify (listModify f c.toNat) r.toNat cells
  else cells

/-- `defaultGridConfig` from `src/config.js` (1 = visible, 0 = invisible). -/
def defaultGridConfig : List (List Nat) :=
  [[1, 1, 1, 1, 1, 1],
   [1, 0, 1, 1, 1, 1],
   [1, 1, 1, 0, 1, 1],
   [1, 1, 1, 1, 1, 1],
   [1, 1, 1, 1, 1, 1],
   [1, 1, 1, 0, 1, 1]]

/-- The cell matrix built by `initializeCellStates` from a visibility mask. -/
def initCells (mask : List (List Nat)) : Grid :=
  (List.range mask.length).map (fun (r : Nat) =>
    let row := mask.getD r []
    (List.range row.length).map (fun (c : Nat) =>
      { rowIndex := (r : Int), cellIndex := (c : Int),
        isVisible := decide (row.getD c 0 = 1),
        isActive := false, isHighlighted := false, unit := none }))

/-! ## Map state and operations -/

/-- The `mapState` global of `src/mapState.js` (plus the unit arena). -/
structure MapState where
  cells : Grid
  activeHexagon : Option Cell
  units : List Nat
  unitOf : Nat → GameUnit
  selectedUnit : Option Nat
  currentTurn : String

/-- Arena update at one unit id (mutation of one unit object). -/
def updUnit (f : Nat → GameUnit) (i : Nat) (u : GameUnit) : Nat → GameUnit :=
  fun j => if j = i then u else f j

/-- The module-initial `mapState` value (before `initializeCellStates`);
the arena holds whatever unit objects callers have constructed. -/
def initialMapState (arena : Nat → GameUnit) : MapState :=
  { cells := [], activeHexagon := none, units := [], unitOf := arena,
    selectedUnit := none, currentTurn := "player" }

/-- `initializeCellStates()`: rebuilds `mapState.cells` from `config.gridConfig`. -/
def initializeCellStates (s : MapState) : MapState :=
  { s with cells := initCells defaultGridConfig }

/-- `toggleCellState(rowIndex, cellIndex)`: flips `isActive` of a visible
in-bounds cell and returns the new value, else returns false unchanged. -/
def toggleCellState (s : MapState) (rowIndex cellIndex : Int) : MapState × Bool :=
  match getCellRaw s.cells rowIndex cellIndex with
  | some cell =>
    if cell.isVisible then
      let cells' := setCell s.cells rowIndex cellIndex
        (fun cl => { cl with isActive := !cl.isActive })
      ({ s with cells := cells' }, !cell.isActive)
    else (s, false)
  | none => (s, false)

/-- `addUnit(unit)`: pushes onto `mapState.units` whenever the argument is
non-null (no membership check in the source). -/
def addUnit (s : MapState) (u : Option Nat) : MapState × Bool :=
  match u with
  | some uid => ({ s with units := s.units ++ [uid] }, true)
  | none => (s, false)

/-- `removeUnit(unit)`: splices the first occurrence out of the roster,
clears the cell reference at the unit's recorded position (when
non-negative), and clears the selection if it was selected. -/
def removeUnit (s : MapState) (u : Option Nat) : MapState × Bool :=
  match u with
  | none => (s, false)
  | some uid =>
    if s.units.contains uid then
      let s1 := { s with units := s.units.erase uid }
      let pos := (s.unitOf uid).position
      let s2 :=
        if 0 ≤ pos.1 ∧ 0 ≤ pos.2 then
          match getCell s1.cells pos.1 pos.2 with
          | some _ =>
            { s1 with cells := setCell s1.cells pos.1 pos.2 (fun cl => { cl with unit := none }) }
          | none => s1
        else s1
      let s3 := if s2.selectedUnit = some uid then { s2 with selectedUnit := none } else s2
      (s3, true)
    else (s, false)

/-- `placeUnit(unit, rowIndex, cellIndex)`: succeeds iff the target cell
exists, is visible and unoccupied; clears any previous cell of the unit,
adds it to the roster if absent, then updates position and cell together. -/
def placeUnit (s : MapState) (uid : Nat) (rowIndex cellIndex : Int) : MapState × Bool :=
  match getCell s.cells rowIndex cellIndex with
  | some cell =>
    if cell.isVisible && !cell.unit.isSome then
      let pos := (s.unitOf uid).position
      let s1 :=
        if 0 ≤ pos.1 ∧ 0 ≤ pos.2 then
          match getCell s.cells pos.1 pos.2 with
          | some _ =>
            { s with cells := setCell s.cells pos.1 pos.2 (fun cl => { cl with unit := none }) }
          | none => s
        else s
      let s2 := if s1.units.contains uid then s1 else { s1 with units := s1.units ++ [uid] }
      let arena' := updUnit s2.unitOf uid { s2.unitOf uid with position := (rowIndex, cellIndex) }
      let cells' := setCell s2.cells rowIndex cellIndex (fun cl => { cl with unit := some uid })
      let s3 := { s2 with unitOf := arena', cells := cells' }
      (s3, true)
    else (s, false)
  | none => (s, false)

/-- `clearHighlightedCells()`. -/
def clearHighlightedCells (s : MapState) : MapState :=
  { s with cells := s.cells.map (List.map (fun cl => { cl with isHighlighted := false })) }

/-- The row-parity-dependent neighbor offsets of `getCellsInRange`. -/
def hexNeighbors (r c : Int) : List (Int × Int) :=
  if r % 2 = 0 then
    [(r - 1, c - 1), (r - 1, c), (r, c + 1), (r + 1, c), (r + 1, c - 1), (r, c - 1)]
  else
    [(r - 1, c), (r - 1, c + 1), (r, c + 1), (r + 1, c + 1), (r + 1, c), (r, c - 1)]

/-- The `while (queue.length > 0)` loop body of `getCellsInRange`: dequeue a
`(row, col, distance)` triple; skip it if the cell does not exist, is
invisible, fails the predicate, or was visited; otherwise record it and,
below `range`, enqueue the six parity-dependent neighbors.  `fuel` bounds
the number of iterations; `getCellsInRange` supplies a fuel that exceeds
the loop's decreasing potential, so the fuel-exhaustion branch is dead. -/
def rangeLoop (cells : Grid) (pred : Cell → Bool) (range : Int) :
    Nat → List (Int × Int × Int) → List (Int × Int) → List Cell → List Cell
  | _, [], _, result => result
  | 0, _ :: _, _, result => result
  | fuel + 1, (r, c, dist) :: queue, visited, result =>
    match getCell cells r c with
    | none => rangeLoop cells pred range fuel queue visited result
    | some cell =>
      if !cell.isVisible || !pred cell then
        rangeLoop cells pred range fuel queue visited result
      else if visited.contains (r, c) then
        rangeLoop cells pred range fuel queue visited result
      else
        let visited' := (r, c) :: visited
        let result' := result ++ [cell]
        if range ≤ dist then
          rangeLoop cells pred range fuel queue visited' result'
        else
          rangeLoop cells pred range fuel
            (queue ++ (hexNeighbors r c).map (fun p => (p.1, p.2, dist + 1)))
            visited' result'

/-- `getCellsInRange(row, col, range, includePredicate)`.  The potential
`7 ^ (range - dist + 1)` of a queue entry strictly bounds the iterations
spawned by it, so `7 ^ (range + 1)` fuel is never exhausted. -/
def getCellsInRange (cells : Grid) (row col : Int) (range : Int)
    (pred : Cell → Bool) : List Cell :=
  if range < 0 || !cellExists cells row col then []
  else rangeLoop cells pred range (7 ^ (range.toNat + 1)) [(row, col, 0)] [] []

/-- `highlightMovementRange(unit)` (private helper): highlights the cells
reachable within `movementRemaining` under the empty-or-self predicate. -/
def highlightMovementRange (s : MapState) (u : Option Nat) : MapState :=
  match u with
  | none => s
  | some uid =>
    if (s.unitOf uid).movementRemaining ≤ 0 then s
    else
      let pos := (s.unitOf uid).position
      let found := getCellsInRange s.cells pos.1 pos.2 (s.unitOf uid).movementRemaining
        (fun cl => cl.unit = some uid || cl.unit = none)
      let cells' := found.foldl (fun g cl =>
        setCell g cl.rowIndex cl.cellIndex (fun x => { x with isHighlighted := true })) s.cells
      { s with cells := cells' }

/-- `selectUnit(unit)`. -/
def selectUnit (s : MapState) (u : Option Nat) : MapState :=
  let s1 := { s with selectedUnit := u }
  let s2 := clearHighlightedCells s1
  highlightMovementRange s2 u

/-- `moveUnit(unit, rowIndex, cellIndex)`. -/
def moveUnit (s : MapState) (u : Option Nat) (rowIndex cellIndex : Int) : MapState × Bool :=
  match u with
  | none => (s, false)
  | some uid =>
    match getCell s.cells rowIndex cellIndex with
    | none => (s, false)
    | some targetCell =>
      if !targetCell.isVisible || targetCell.unit.isSome then (s, false)
      else
        let cost : Int := 1
        let oldPos := (s.unitOf uid).position
        let moved := (s.unitOf uid).move rowIndex cellIndex cost
        if moved.2 then
          let s1 := { s with unitOf := updUnit s.unitOf uid moved.1 }
          let s2 :=
            match getCell s1.cells oldPos.1 oldPos.2 with
            | some _ =>
              { s1 with
                cells := setCell s1.cells oldPos.1 oldPos.2 (fun cl => { cl with unit := none }) }
            | none => s1
          let s3 := { s2 with
            cells := setCell s2.cells rowIndex cellIndex (fun cl => { cl with unit := some uid }) }
          let s4 := clearHighlightedCells s3
          let s5 := if 0 < (s4.unitOf uid).movementRemaining
            then highlightMovementRange s4 (some uid) else s4
          (s5, true)
        else (s, false)

/-- `endTurn()`: clears selection and highlights, flips `currentTurn`, and
resets every roster unit owned by the new `currentTurn`.  (The `setTimeout`
scheduling of the AI callback is an external effect outside the state.) -/
def endTurn (s : MapState) : MapState :=
  let s1 := { s with selectedUnit := none }
  let s2 := clearHighlightedCells s1
  let newTurn := if s2.currentTurn = "player" then "ai" else "player"
  let s3 := { s2 with currentTurn := newTurn }
  { s3 with unitOf := fun j =>
      if s3.units.contains j && (s3.unitOf j).owner = newTurn
      then (s3.unitOf j).resetTurn else s3.unitOf j }

/-! ## Lookup and update lemmas -/

theorem listModify_getElem? {α : Type} (f : α → α) (n : Nat) (l : List α) (m : Nat) :
    (listModify f n l)[m]? = if m = n then l[m]?.map f else l[m]? := by
  induction l generalizing n m with
  | nil => simp [listModify]
  | cons x xs ih =>
    cases n with
    | zero => cases m <;> simp [listModify]
    | succ n =>
      cases m with
      | zero => simp [listModify]
      | succ m => simpa [listModify] using ih n m

theorem getCellRaw_nonneg {cells : Grid} {r c : Int} {cell : Cell}
    (h : getCellRaw cells r c = some cell) : 0 ≤ r ∧ 0 ≤ c := by
  unfold getCellRaw at h
  split at h
  · constructor
    · assumption
    · split at h
      · split at h
        · assumption
        · exact absurd h (by simp)
      · exact absurd h (by simp)
  · exact absurd h (by simp)

theorem getCellRaw_eq (cells : Grid) (r c : Int) :
    getCellRaw cells r c =
      (if 0 ≤ r then cells[r.toNat]? else none).bind
        (fun row => if 0 ≤ c then row[c.toNat]? else none) := by
  unfold getCellRaw
  by_cases hr : 0 ≤ r
  · simp only [hr, if_true]
    cases cells[r.toNat]? <;> rfl
  · simp [hr]

theorem getCellRaw_setCell_same (cells : Grid) (r c : Int) (f : Cell → Cell) :
    getCellRaw (setCell cells r c f) r c = (getCellRaw cells r c).map f := by
  rw [getCellRaw_eq, getCellRaw_eq]
  unfold setCell
  by_cases hrc : 0 ≤ r ∧ 0 ≤ c
  · rw [if_pos hrc, listModify_getElem?]
    simp only [hrc.1, hrc.2, if_true]
    cases h : cells[r.toNat]? with
    | none => simp
    | some row => simp [listModify_getElem?]
  · rw [if_neg hrc]
    rcases not_and_or.mp hrc with hr | hc
    · simp [hr]
    · by_cases hr : 0 ≤ r
      · simp only [hr, if_true]
        cases cells[r.toNat]? <;> simp [hc]
      · simp [hr]

theorem getCellRaw_setCell_ne (cells : Grid) (r c : Int) (f : Cell → Cell)
    (r' c' : Int) (hne : ¬(r' = r ∧ c' = c)) :
    getCellRaw (setCell cells r c f) r' c' = getCellRaw cells r' c' := by
  rw [getCellRaw_eq, getCellRaw_eq]
  unfold setCell
  by_cases hrc : 0 ≤ r ∧ 0 ≤ c
  · rw [if_pos hrc, listModify_getElem?]
    by_cases hr' : 0 ≤ r'
    · simp only [hr', if_true]
      by_cases hrr : r'.toNat = r.toNat
      · have hreq : r' = r := by omega
        rw [if_pos hrr]
        cases h : cells[r'.toNat]? with
        | none => simp
        | some row =>
          simp only [Option.map_some', Option.some_bind, listModify_getElem?]
          by_cases hc' : 0 ≤ c'
          · have hcc : ¬(c'.toNat = c.toNat) := fun hcc => hne ⟨hreq, by omega⟩
            simp [hc', hcc]
          · simp [hc']
      · rw [if_neg hrr]
    · simp [hr']
  · rw [if_neg hrc]

theorem getCellRaw_map (cells : Grid) (f : Cell → Cell) (r c : Int) :
    getCellRaw (cells.map (List.map f)) r c = (getCellRaw cells r c).map f := by
  unfold getCellRaw
  by_cases hr : 0 ≤ r
  · simp only [hr, if_true, List.getElem?_map]
    cases h : cells[r.toNat]? with
    | none => simp [h]
    | some row =>
      simp only [h, Option.map_some']
      by_cases hc : 0 ≤ c
      · simp [hc, List.getElem?_map]
      · simp [hc]
  · simp [hr]

theorem getCell_eq_some_iff {cells : Grid} {r c : Int} {cell : Cell} :
    getCell cells r c = some cell ↔
      getCellRaw cells r c = some cell ∧ cell.isVisible = true := by
  unfold getCell cellExists
  cases h : getCellRaw cells r c with
  | none => simp
  | some cl =>
    by_cases hv : cl.isVisible
    · simp only [hv, if_true]
      constructor
      · rintro he
        cases he
        exact ⟨rfl, hv⟩
      · rintro ⟨he, _⟩
        cases he
        rfl
    · simp only [Bool.not_eq_true] at hv
      simp only [hv, Bool.false_eq_true, if_false]
      constructor
      · intro he
        exact absurd he (by simp)
      · rintro ⟨he, hvis⟩
        cases he
        rw [hvis] at hv
        cases hv

theorem cellExists_iff {cells : Grid} {r c : Int} :
    cellExists cells r c = true ↔
      ∃ cell, getCellRaw cells r c = some cell ∧ cell.isVisible = true := by
  unfold cellExists
  cases h : getCellRaw cells r c with
  | none => simp
  | some cl =>
    constructor
    · intro hv
      exact ⟨cl, rfl, hv⟩
    · rintro ⟨cell, he, hv⟩
      cases he
      exact hv

theorem getCell_of_cellExists {cells : Grid} {r c : Int}
    (h : cellExists cells r c = true) : getCell cells r c = getCellRaw cells r c := by
  unfold getCell
  simp [h]

/-! ## Core-preserving grid transformations

`cellCore` is the part of a cell that the occupancy invariant reads:
its stored coordinates, its unit reference, and its visibility.
Highlight/activation updates preserve it. -/

def cellCore (cl : Cell) : Int × Int × Option Nat × Bool :=
  (cl.rowIndex, cl.cellIndex, cl.unit, cl.isVisible)

def SameCore (g g' : Grid) : Prop :=
  ∀ r c, (getCellRaw g' r c).map cellCore = (getCellRaw g r c).map cellCore

theorem SameCore.refl (g : Grid) : SameCore g g := fun _ _ => rfl

theorem SameCore.trans {g1 g2 g3 : Grid} (h12 : SameCore g1 g2) (h23 : SameCore g2 g3) :
    SameCore g1 g3 := fun r c => (h23 r c).trans (h12 r c)

theorem sameCore_setCell {g : Grid} (r c : Int) {f : Cell → Cell}
    (hf : ∀ cl, cellCore (f cl) = cellCore cl) : SameCore g (setCell g r c f) := by
  intro r' c'
  by_cases h : r' = r ∧ c' = c
  · obtain ⟨rfl, rfl⟩ := h
    rw [getCellRaw_setCell_same]
    cases getCellRaw g r' c' with
    | none => rfl
    | some cl => simp [hf]
  · rw [getCellRaw_setCell_ne g r c f r' c' h]

theorem sameCore_mapGrid {g : Grid} {f : Cell → Cell}
    (hf : ∀ cl, cellCore (f cl) = cellCore cl) : SameCore g (g.map (List.map f)) := by
  intro r c
  rw [getCellRaw_map]
  cases getCellRaw g r c with
  | none => rfl
  | some cl => simp [hf]

theorem sameCore_foldlHighlight {g : Grid} (l : List Cell) :
    SameCore g (l.foldl (fun acc cl =>
      setCell acc cl.rowIndex cl.cellIndex (fun x => { x with isHighlighted := true })) g) := by
  induction l generalizing g with
  | nil => exact SameCore.refl g
  | cons x xs ih =>
    rw [List.foldl_cons]
    exact SameCore.trans
      (@sameCore_setCell g x.rowIndex x.cellIndex
        (fun y => { y with isHighlighted := true }) (fun cl => rfl)) ih

theorem sameCore_getCellRaw {g g' : Grid} (h : SameCore g g') {r c : Int} {cell' : Cell}
    (h' : getCellRaw g' r c = some cell') :
    ∃ cell, getCellRaw g r c = some cell ∧ cellCore cell = cellCore cell' := by
  have := h r c
  rw [h'] at this
  cases hg : getCellRaw g r c with
  | none => rw [hg] at this; exact absurd this.symm (by simp)
  | some cell =>
    rw [hg] at this
    simp only [Option.map_some', Option.some.injEq] at this
    exact ⟨cell, rfl, this.symm⟩

theorem sameCore_cellExists {g g' : Grid} (h : SameCore g g') (r c : Int) :
    cellExists g' r c = cellExists g r c := by
  unfold Hexclaude.cellExists
  have := h r c
  cases hg' : getCellRaw g' r c with
  | none =>
    rw [hg'] at this
    cases hg : getCellRaw g r c with
    | none => rfl
    | some cl => rw [hg] at this; exact absurd this (by simp)
  | some cl' =>
    rw [hg'] at this
    cases hg : getCellRaw g r c with
    | none => rw [hg] at this; exact absurd this (by simp)
    | some cl =>
      rw [hg] at this
      simp only [Option.map_some', Option.some.injEq, cellCore, Prod.mk.injEq] at this
      simp [this.2.2.2]

/-! ## The occupancy invariant

`Inv` is the strengthened inductive invariant: every stored cell records
its own coordinates; every occupied cell's unit has `position` equal to
those coordinates and the cell is visible.  The claim's invariant
(position consistency and at-most-one cell per unit) follows from it. -/

def Inv (g : Grid) (arena : Nat → GameUnit) : Prop :=
  ∀ r c cell, getCellRaw g r c = some cell →
    (cell.rowIndex = r ∧ cell.cellIndex = c) ∧
    ∀ uid, cell.unit = some uid →
      (arena uid).position = (r, c) ∧ cell.isVisible = true

def InvS (s : MapState) : Prop := Inv s.cells s.unitOf

theorem Inv.transport {g g' : Grid} {a a' : Nat → GameUnit}
    (hcells : SameCore g g') (hpos : ∀ uid, (a' uid).position = (a uid).position)
    (h : Inv g a) : Inv g' a' := by
  intro r c cell' hcell'
  obtain ⟨cell, hcell, hcore⟩ := sameCore_getCellRaw hcells hcell'
  obtain ⟨⟨hr, hc⟩, hB⟩ := h r c cell hcell
  simp only [cellCore, Prod.mk.injEq] at hcore
  obtain ⟨h1, h2, h3, h4⟩ := hcore
  refine ⟨⟨h1 ▸ hr, h2 ▸ hc⟩, ?_⟩
  intro uid huid
  have huid' : cell.unit = some uid := h3.trans huid
  obtain ⟨hp, hv⟩ := hB uid huid'
  exact ⟨(hpos uid).trans hp, h4 ▸ hv⟩

theorem Inv.clearCell {g : Grid} {a : Nat → GameUnit} (p q : Int) (h : Inv g a) :
    Inv (setCell g p q (fun cl => { cl with unit := none })) a := by
  intro r c cell' hcell'
  by_cases hpq : r = p ∧ c = q
  · obtain ⟨rfl, rfl⟩ := hpq
    rw [getCellRaw_setCell_same] at hcell'
    cases hg : getCellRaw g r c with
    | none => rw [hg] at hcell'; exact absurd hcell' (by simp)
    | some cell =>
      rw [hg] at hcell'
      simp only [Option.map_some', Option.some.injEq] at hcell'
      obtain ⟨⟨hr, hc⟩, _⟩ := h r c cell hg
      subst hcell'
      refine ⟨⟨hr, hc⟩, ?_⟩
      intro uid huid
      exact absurd huid (by simp)
  · rw [getCellRaw_setCell_ne g p q _ r c hpq] at hcell'
    exact h r c cell' hcell'

/-- The clearing of a unit's previous cell, shared by `placeUnit` (guarded
by a non-negativity test that `getCell` subsumes) and `moveUnit`. -/
def clearAtPos (g : Grid) (p : Int × Int) : Grid :=
  match getCell g p.1 p.2 with
  | some _ => setCell g p.1 p.2 (fun cl => { cl with unit := none })
  | none => g

theorem getCell_neg {g : Grid} {p q : Int} (h : ¬(0 ≤ p ∧ 0 ≤ q)) :
    getCell g p q = none := by
  unfold getCell cellExists
  cases hr : getCellRaw g p q with
  | none => simp
  | some cell => exact absurd (getCellRaw_nonneg hr) h

theorem cond_clear_eq_clearAtPos (g : Grid) (p : Int × Int) :
    (if 0 ≤ p.1 ∧ 0 ≤ p.2 then
      match getCell g p.1 p.2 with
      | some _ => setCell g p.1 p.2 (fun cl => { cl with unit := none })
      | none => g
    else g) = clearAtPos g p := by
  unfold clearAtPos
  by_cases hp : 0 ≤ p.1 ∧ 0 ≤ p.2
  · rw [if_pos hp]
  · rw [if_neg hp, getCell_neg hp]

theorem Inv.clearPrev {g : Grid} {a : Nat → GameUnit} (p : Int × Int) (h : Inv g a) :
    Inv (clearAtPos g p) a := by
  unfold Hexclaude.clearAtPos
  cases getCell g p.1 p.2 with
  | none => exact h
  | some cell => exact h.clearCell p.1 p.2

/-- After clearing the cell recorded in `a uid`'s position, no cell of the
grid references `uid` any more. -/
theorem clearAtPos_no_ref {g : Grid} {a : Nat → GameUnit} (uid : Nat) (h : Inv g a) :
    ∀ r c cell, getCellRaw (clearAtPos g (a uid).position) r c = some cell →
      cell.unit ≠ some uid := by
  intro r c cell hcell huid
  unfold clearAtPos at hcell
  by_cases hp : (r, c) = (a uid).position
  · cases hg : getCell g (a uid).position.1 (a uid).position.2 with
    | none =>
      rw [hg] at hcell
      obtain ⟨_, hB⟩ := h r c cell hcell
      obtain ⟨hpos, hvis⟩ := hB uid huid
      have : getCell g r c = some cell := getCell_eq_some_iff.mpr ⟨hcell, hvis⟩
      have hp1 : (a uid).position.1 = r := by rw [← hp]
      have hp2 : (a uid).position.2 = c := by rw [← hp]
      rw [hp1, hp2] at hg
      rw [hg] at this
      exact absurd this (by simp)
    | some tc =>
      rw [hg] at hcell
      have hp1 : (a uid).position.1 = r := by rw [← hp]
      have hp2 : (a uid).position.2 = c := by rw [← hp]
      rw [hp1, hp2, getCellRaw_setCell_same] at hcell
      cases hraw : getCellRaw g r c with
      | none => rw [hraw] at hcell; exact absurd hcell (by simp)
      | some cell0 =>
        rw [hraw] at hcell
        simp only [Option.map_some', Option.some.injEq] at hcell
        subst hcell
        exact absurd huid (by simp)
  · have hne : ¬(r = (a uid).position.1 ∧ c = (a uid).position.2) := by
      intro ⟨h1, h2⟩
      exact hp (by rw [h1, h2])
    have hcell' : getCellRaw g r c = some cell := by
      cases hg : getCell g (a uid).position.1 (a uid).position.2 with
      | none => rw [hg] at hcell; exact hcell
      | some tc =>
        rw [hg] at hcell
        rw [getCellRaw_setCell_ne _ _ _ _ _ _ hne] at hcell
        exact hcell
    obtain ⟨_, hB⟩ := h r c cell hcell'
    obtain ⟨hpos, _⟩ := hB uid huid
    exact hp (by rw [hpos])

/-- Core placement lemma: overwriting the target cell's reference with
`uid` while setting `uid`'s position to the target, after clearing `uid`'s
previous cell, preserves the invariant. -/
theorem Inv.placeCore {g : Grid} {a : Nat → GameUnit} (uid : Nat) (rT cT : Int)
    {tc : Cell} (u' : GameUnit)
    (h : Inv g a) (htc : getCellRaw g rT cT = some tc) (hvis : tc.isVisible = true)
    (hu' : u'.position = (rT, cT)) :
    Inv (setCell (clearAtPos g (a uid).position) rT cT
          (fun cl => { cl with unit := some uid }))
        (updUnit a uid u') := by
  have hg1 : Inv (clearAtPos g (a uid).position) a := h.clearPrev _
  have hnoref := clearAtPos_no_ref uid h
  intro r c cell' hcell'
  by_cases hT : r = rT ∧ c = cT
  · obtain ⟨rfl, rfl⟩ := hT
    rw [getCellRaw_setCell_same] at hcell'
    cases hg : getCellRaw (clearAtPos g (a uid).position) r c with
    | none => rw [hg] at hcell'; exact absurd hcell' (by simp)
    | some cell1 =>
      rw [hg] at hcell'
      simp only [Option.map_some', Option.some.injEq] at hcell'
      obtain ⟨⟨hr1, hc1⟩, _⟩ := hg1 r c cell1 hg
      -- visibility of cell1: it lives at the target coordinates, where the
      -- original cell `tc` is visible; clearing does not change visibility
      have hvis1 : cell1.isVisible = true := by
        unfold clearAtPos at hg
        cases hgc : getCell g (a uid).position.1 (a uid).position.2 with
        | none =>
          rw [hgc] at hg
          rw [htc] at hg
          cases hg
          exact hvis
        | some tc0 =>
          rw [hgc] at hg
          by_cases hne : r = (a uid).position.1 ∧ c = (a uid).position.2
          · obtain ⟨hp1, hp2⟩ := hne
            rw [← hp1, ← hp2] at hg
            rw [getCellRaw_setCell_same, htc] at hg
            simp only [Option.map_some', Option.some.injEq] at hg
            rw [← hg]
            exact hvis
          · rw [getCellRaw_setCell_ne _ _ _ _ _ _ hne, htc] at hg
            cases hg
            exact hvis
      subst hcell'
      refine ⟨⟨hr1, hc1⟩, ?_⟩
      intro uid2 huid2
      simp only [Option.some.injEq] at huid2
      subst huid2
      constructor
      · simp only [updUnit, if_pos rfl]
        exact hu'
      · exact hvis1
  · rw [getCellRaw_setCell_ne _ _ _ _ _ _ hT] at hcell'
    obtain ⟨hA, hB⟩ := hg1 r c cell' hcell'
    refine ⟨hA, ?_⟩
    intro uid2 huid2
    have hne2 : uid2 ≠ uid := by
      intro heq
      exact hnoref r c cell' hcell' (heq ▸ huid2)
    obtain ⟨hpos, hv⟩ := hB uid2 huid2
    refine ⟨?_, hv⟩
    simp only [updUnit, if_neg hne2]
    exact hpos

/-! ## Invariant preservation by each exported mutation -/

theorem GameUnit.move_true {u : GameUnit} {row col cost : Int}
    (h : (u.move row col cost).2 = true) :
    cost ≤ u.movementRemaining ∧
    (u.move row col cost).1 =
      { u with position := (row, col), movementRemaining := u.movementRemaining - cost } := by
  by_cases hc : cost ≤ u.movementRemaining
  · refine ⟨hc, ?_⟩
    unfold GameUnit.move
    rw [if_pos hc]
  · unfold GameUnit.move at h
    rw [if_neg hc] at h
    simp at h

theorem GameUnit.move_false {u : GameUnit} {row col cost : Int}
    (h : (u.move row col cost).2 = false) :
    ¬cost ≤ u.movementRemaining ∧ (u.move row col cost).1 = u := by
  by_cases hc : cost ≤ u.movementRemaining
  · unfold GameUnit.move at h
    rw [if_pos hc] at h
    simp at h
  · refine ⟨hc, ?_⟩
    unfold GameUnit.move
    rw [if_neg hc]

theorem clearHighlighted_sameCore (s : MapState) :
    SameCore s.cells (clearHighlightedCells s).cells :=
  @sameCore_mapGrid s.cells (fun cl => { cl with isHighlighted := false }) (fun _ => rfl)

theorem highlight_sameCore (s : MapState) (u : Option Nat) :
    SameCore s.cells (highlightMovementRange s u).cells ∧
    (highlightMovementRange s u).unitOf = s.unitOf := by
  unfold highlightMovementRange
  cases u with
  | none => exact ⟨SameCore.refl _, rfl⟩
  | some uid =>
    dsimp only
    by_cases hm : (s.unitOf uid).movementRemaining ≤ 0
    · rw [if_pos hm]
      exact ⟨SameCore.refl _, rfl⟩
    · rw [if_neg hm]
      exact ⟨sameCore_foldlHighlight _, rfl⟩

theorem invS_transport {s s' : MapState} (h : InvS s) (hc : SameCore s.cells s'.cells)
    (ha : s'.unitOf = s.unitOf) : InvS s' := by
  unfold InvS
  rw [ha]
  exact Inv.transport hc (fun _ => rfl) h

theorem initCells_spec (mask : List (List Nat)) (r c : Int) (cell : Cell)
    (h : getCellRaw (initCells mask) r c = some cell) :
    cell.rowIndex = r ∧ cell.cellIndex = c ∧ cell.unit = none := by
  unfold getCellRaw initCells at h
  by_cases hr : 0 ≤ r
  · simp only [hr, if_true, List.getElem?_map] at h
    cases hrow : (List.range mask.length)[r.toNat]? with
    | none => rw [hrow] at h; exact absurd h (by simp)
    | some rn =>
      have hrn : rn = r.toNat := by
        obtain ⟨hlt, hval⟩ := List.getElem?_eq_some.mp hrow
        rw [← hval, List.getElem_range]
      subst hrn
      rw [hrow] at h
      simp only [Option.map_some'] at h
      by_cases hc : 0 ≤ c
      · simp only [hc, if_true, List.getElem?_map] at h
        cases hcol : (List.range (mask.getD r.toNat []).length)[c.toNat]? with
        | none => rw [hcol] at h; exact absurd h (by simp)
        | some cn =>
          have hcn : cn = c.toNat := by
            obtain ⟨hlt, hval⟩ := List.getElem?_eq_some.mp hcol
            rw [← hval, List.getElem_range]
          subst hcn
          rw [hcol] at h
          simp only [Option.map_some', Option.some.injEq] at h
          subst h
          refine ⟨?_, ?_, rfl⟩
          · simpa using Int.toNat_of_nonneg hr
          · simpa using Int.toNat_of_nonneg hc
      · simp only [hc, if_false] at h
        exact absurd h (by simp)
  · simp only [hr, if_false] at h
    exact absurd h (by simp)

theorem Inv_initCells (mask : List (List Nat)) (arena : Nat → GameUnit) :
    Inv (initCells mask) arena := by
  intro r c cell hcell
  obtain ⟨h1, h2, h3⟩ := initCells_spec mask r c cell hcell
  refine ⟨⟨h1, h2⟩, ?_⟩
  intro uid huid
  rw [h3] at huid
  cases huid

theorem InvS_initializeCellStates (s : MapState) : InvS (initializeCellStates s) :=
  Inv_initCells defaultGridConfig s.unitOf

theorem InvS_toggle (s : MapState) (r c : Int) (h : InvS s) :
    InvS (toggleCellState s r c).1 := by
  unfold toggleCellState
  cases hg : getCellRaw s.cells r c with
  | none => exact h
  | some cell =>
    by_cases hv : cell.isVisible = true
    · simp only [hv, if_true]
      refine invS_transport h ?_ rfl
      exact @sameCore_setCell s.cells r c (fun cl => { cl with isActive := !cl.isActive })
        (fun _ => rfl)
    · simp only [hv]
      simp only [Bool.not_eq_true] at hv
      simp only [hv, Bool.false_eq_true, if_false]
      exact h

theorem InvS_addUnit (s : MapState) (u : Option Nat) (h : InvS s) :
    InvS (addUnit s u).1 := by
  cases u with
  | none => exact h
  | some uid => exact h

theorem InvS_removeUnit (s : MapState) (u : Option Nat) (h : InvS s) :
    InvS (removeUnit s u).1 := by
  unfold removeUnit
  cases u with
  | none => exact h
  | some uid =>
    by_cases hc : s.units.contains uid = true
    · simp only [hc, if_true]
      by_cases hp : 0 ≤ (s.unitOf uid).position.1 ∧ 0 ≤ (s.unitOf uid).position.2
      · simp only [hp, and_self, if_true]
        cases hg : getCell s.cells (s.unitOf uid).position.1 (s.unitOf uid).position.2 with
        | none =>
          simp only [hg]
          split <;> exact h
        | some cl =>
          simp only [hg]
          have hcl := Inv.clearCell (s.unitOf uid).position.1 (s.unitOf uid).position.2 h
          split <;> exact hcl
      · rw [if_neg hp]
        split <;> exact h
    · simp only [hc, Bool.false_eq_true, if_false]
      exact h

theorem InvS_clearHLS (s : MapState) (h : InvS s) : InvS (clearHighlightedCells s) :=
  invS_transport h (clearHighlighted_sameCore s) rfl

theorem InvS_highlightMR (s : MapState) (u : Option Nat) (h : InvS s) :
    InvS (highlightMovementRange s u) :=
  invS_transport h (highlight_sameCore s u).1 (highlight_sameCore s u).2

theorem InvS_placeUnit (s : MapState) (uid : Nat) (r c : Int) (h : InvS s) :
    InvS (placeUnit s uid r c).1 := by
  unfold placeUnit
  cases hg : getCell s.cells r c with
  | none => exact h
  | some tc =>
    obtain ⟨htcraw, htcvis⟩ := getCell_eq_some_iff.mp hg
    by_cases hguard : (tc.isVisible && !tc.unit.isSome) = true
    · simp only [hguard, if_true]
      have hcore := Inv.placeCore uid r c { s.unitOf uid with position := (r, c) }
        h htcraw htcvis rfl
      by_cases hp : 0 ≤ (s.unitOf uid).position.1 ∧ 0 ≤ (s.unitOf uid).position.2
      · simp only [hp, and_self, if_true]
        cases hold : getCell s.cells (s.unitOf uid).position.1 (s.unitOf uid).position.2 with
        | none =>
          have hclear : clearAtPos s.cells (s.unitOf uid).position = s.cells := by
            unfold clearAtPos
            rw [hold]
          rw [hclear] at hcore
          simp only [hold]
          split <;> exact hcore
        | some oldcl =>
          have hclear : clearAtPos s.cells (s.unitOf uid).position =
              setCell s.cells (s.unitOf uid).position.1 (s.unitOf uid).position.2
                (fun cl => { cl with unit := none }) := by
            unfold clearAtPos
            rw [hold]
          rw [hclear] at hcore
          simp only [hold]
          split <;> exact hcore
      · have hclear : clearAtPos s.cells (s.unitOf uid).position = s.cells := by
          unfold clearAtPos
          rw [getCell_neg hp]
        rw [hclear] at hcore
        simp only [hp, if_false]
        split <;> exact hcore
    · simp only [hguard, Bool.false_eq_true, if_false]
      exact h

theorem InvS_moveUnit (s : MapState) (u : Option Nat) (r c : Int) (h : InvS s) :
    InvS (moveUnit s u r c).1 := by
  unfold moveUnit
  cases u with
  | none => exact h
  | some uid =>
    cases hg : getCell s.cells r c with
    | none => exact h
    | some tc =>
      obtain ⟨htcraw, htcvis⟩ := getCell_eq_some_iff.mp hg
      by_cases hguard : (!tc.isVisible || tc.unit.isSome) = true
      · simp only [hguard, if_true]
        exact h
      · simp only [hguard, Bool.false_eq_true, if_false]
        by_cases hmv : ((s.unitOf uid).move r c 1).2 = true
        · simp only [hmv, if_true]
          have hu' : ((s.unitOf uid).move r c 1).1.position = (r, c) := by
            rw [(GameUnit.move_true hmv).2]
          have hcore := Inv.placeCore uid r c ((s.unitOf uid).move r c 1).1
            h htcraw htcvis hu'
          cases hold : getCell s.cells (s.unitOf uid).position.1 (s.unitOf uid).position.2 with
          | none =>
            have hclear : clearAtPos s.cells (s.unitOf uid).position = s.cells := by
              unfold clearAtPos
              rw [hold]
            rw [hclear] at hcore
            simp only [hold]
            split
            · exact InvS_highlightMR _ _ (InvS_clearHLS _ hcore)
            · exact InvS_clearHLS _ hcore
          | some oldcl =>
            have hclear : clearAtPos s.cells (s.unitOf uid).position =
                setCell s.cells (s.unitOf uid).position.1 (s.unitOf uid).position.2
                  (fun cl => { cl with unit := none }) := by
              unfold clearAtPos
              rw [hold]
            rw [hclear] at hcore
            simp only [hold]
            split
            · exact InvS_highlightMR _ _ (InvS_clearHLS _ hcore)
            · exact InvS_clearHLS _ hcore
        · simp only [hmv, Bool.false_eq_true, if_false]
          exact h

theorem InvS_selectUnit (s : MapState) (u : Option Nat) (h : InvS s) :
    InvS (selectUnit s u) := by
  unfold selectUnit
  exact InvS_highlightMR _ _ (InvS_clearHLS _ h)

theorem resetArena_position (s3 : MapState) (newTurn : String) (uid : Nat) :
    ((fun j => if s3.units.contains j && (s3.unitOf j).owner = newTurn
      then (s3.unitOf j).resetTurn else s3.unitOf j) uid).position =
    (s3.unitOf uid).position := by
  by_cases hcond : (s3.units.contains uid && (s3.unitOf uid).owner = newTurn) = true
  · simp only [hcond, if_true]
    rfl
  · simp only [hcond, Bool.false_eq_true, if_false]

theorem InvS_endTurn (s : MapState) (h : InvS s) : InvS (endTurn s) := by
  unfold InvS endTurn
  refine Inv.transport ?_ ?_ h
  · exact @sameCore_mapGrid s.cells (fun cl => { cl with isHighlighted := false }) (fun _ => rfl)
  · intro uid
    exact resetArena_position _ _ uid

/-! ## Reachable states -/

/-- States reachable by the exported mutation operations from the freshly
initialized grid (with an arbitrary collection of caller-built units). -/
inductive Reachable : MapState → Prop
  | start (arena : Nat → GameUnit) :
      Reachable (initializeCellStates (initialMapState arena))
  | reinit {s : MapState} : Reachable s → Reachable (initializeCellStates s)
  | add {s : MapState} (u : Option Nat) : Reachable s → Reachable (addUnit s u).1
  | remove {s : MapState} (u : Option Nat) : Reachable s → Reachable (removeUnit s u).1
  | place {s : MapState} (uid : Nat) (r c : Int) :
      Reachable s → Reachable (placeUnit s uid r c).1
  | move {s : MapState} (u : Option Nat) (r c : Int) :
      Reachable s → Reachable (moveUnit s u r c).1
  | select {s : MapState} (u : Option Nat) : Reachable s → Reachable (selectUnit s u)
  | turn {s : MapState} : Reachable s → Reachable (endTurn s)
  | toggle {s : MapState} (r c : Int) : Reachable s → Reachable (toggleCellState s r c).1
  | clearHL {s : MapState} : Reachable s → Reachable (clearHighlightedCells s)

theorem InvS_of_Reachable {s : MapState} (h : Reachable s) : InvS s := by
  induction h with
  | start arena => exact InvS_initializeCellStates _
  | reinit _ ih => exact InvS_initializeCellStates _
  | add u _ ih => exact InvS_addUnit _ u ih
  | remove u _ ih => exact InvS_removeUnit _ u ih
  | place uid r c _ ih => exact InvS_placeUnit _ uid r c ih
  | move u r c _ ih => exact InvS_moveUnit _ u r c ih
  | select u _ ih => exact InvS_selectUnit _ u ih
  | turn _ ih => exact InvS_endTurn _ ih
  | toggle r c _ ih => exact InvS_toggle _ r c ih
  | clearHL _ ih => exact InvS_clearHLS _ ih

/-! ## Failure specifications (no partial mutation) -/

theorem toggleCellState_fail (s : MapState) (r c : Int)
    (h : cellExists s.cells r c = false) : toggleCellState s r c = (s, false) := by
  unfold toggleCellState
  unfold cellExists at h
  cases hg : getCellRaw s.cells r c with
  | none => rfl
  | some cell =>
    rw [hg] at h
    dsimp only at h ⊢
    rw [h]
    rfl

theorem placeUnit_fail (s : MapState) (uid : Nat) (r c : Int)
    (h : (placeUnit s uid r c).2 = false) : (placeUnit s uid r c).1 = s := by
  unfold placeUnit at h ⊢
  cases hg : getCell s.cells r c with
  | none => rfl
  | some tc =>
    rw [hg] at h
    dsimp only at h ⊢
    by_cases hguard : (tc.isVisible && !tc.unit.isSome) = true
    · rw [hguard] at h
      simp at h
    · rw [Bool.not_eq_true] at hguard
      rw [hguard]
      rfl

theorem moveUnit_fail (s : MapState) (u : Option Nat) (r c : Int)
    (h : (moveUnit s u r c).2 = false) : (moveUnit s u r c).1 = s := by
  unfold moveUnit at h ⊢
  cases u with
  | none => rfl
  | some uid =>
    cases hg : getCell s.cells r c with
    | none => rfl
    | some tc =>
      rw [hg] at h
      dsimp only at h ⊢
      by_cases hguard : (!tc.isVisible || tc.unit.isSome) = true
      · rw [hguard]
        rfl
      · rw [Bool.not_eq_true] at hguard
        rw [hguard] at h ⊢
        by_cases hmv : ((s.unitOf uid).move r c 1).2 = true
        · rw [hmv] at h
          simp at h
        · rw [Bool.not_eq_true] at hmv
          rw [hmv]
          rfl

theorem removeUnit_fail (s : MapState) (u : Option Nat)
    (h : (removeUnit s u).2 = false) : (removeUnit s u).1 = s := by
  unfold removeUnit at h ⊢
  cases u with
  | none => rfl
  | some uid =>
    dsimp only at h ⊢
    by_cases hc : s.units.contains uid = true
    · rw [hc] at h
      simp at h
    · rw [Bool.not_eq_true] at hc
      rw [hc]
      rfl

theorem performAttack_fail (u : GameUnit) (h : u.hasAttacked = true) :
    u.performAttack = (u, 0) := by
  unfold GameUnit.performAttack GameUnit.canAttack
  rw [h]
  rfl

/-! ## Concrete scenario states used by counterexamples and witnesses -/

/-- An arena of caller-built units: unit 0 is an AI-owned mage
(movement 1), unit 1 a player-owned soldier, unit 2 a soldier with
attack 0, the rest default soldiers. -/
def demoArena : Nat → GameUnit := fun i =>
  if i = 0 then createUnit "mage" "ai"
  else if i = 1 then createUnit "soldier" "player"
  else if i = 2 then mkUnit "soldier" "player" 10 0 2
  else createUnit "soldier" "player"

/-- The freshly initialized state. -/
def demo0 : MapState := initializeCellStates (initialMapState demoArena)

/-- The mage placed at (0, 0). -/
def demo1 : MapState := (placeUnit demo0 0 0 0).1

/-- The fresh state with units 0 and 1 added to the roster. -/
def demoRoster : MapState := (addUnit (addUnit demo0 (some 0)).1 (some 1)).1

/-! ## C2 -/

/-- The occupancy property claimed by C2: every occupied cell's unit has
`position` equal to that cell's `(rowIndex, cellIndex)`, and no two
distinct cell coordinates hold the same unit. -/
def OccupancyOk (s : MapState) : Prop :=
  (∀ r c cell uid, getCellRaw s.cells r c = some cell → cell.unit = some uid →
    (s.unitOf uid).position = (cell.rowIndex, cell.cellIndex)) ∧
  (∀ r1 c1 r2 c2 cell1 cell2 uid,
    getCellRaw s.cells r1 c1 = some cell1 → cell1.unit = some uid →
    getCellRaw s.cells r2 c2 = some cell2 → cell2.unit = some uid →
    r1 = r2 ∧ c1 = c2)

/-- C2: in every state reachable from the freshly initialized grid by any
sequence of the exported mutation operations, every cell with a non-null
unit reference holds a unit whose position equals that cell's
(rowIndex, cellIndex), and no two cells hold the same unit. -/
theorem c2_occupancy_invariant (s : MapState) (h : Reachable s) : OccupancyOk s := by
  have hi := InvS_of_Reachable h
  constructor
  · intro r c cell uid hcell huid
    obtain ⟨⟨hr, hc⟩, hB⟩ := hi r c cell hcell
    obtain ⟨hpos, _⟩ := hB uid huid
    rw [hpos, hr, hc]
  · intro r1 c1 r2 c2 cell1 cell2 uid h1 hu1 h2 hu2
    obtain ⟨_, hB1⟩ := hi r1 c1 cell1 h1
    obtain ⟨_, hB2⟩ := hi r2 c2 cell2 h2
    obtain ⟨hp1, _⟩ := hB1 uid hu1
    obtain ⟨hp2, _⟩ := hB2 uid hu2
    have heq : ((r1 : Int), (c1 : Int)) = ((r2 : Int), (c2 : Int)) := hp1.symm.trans hp2
    exact ⟨congrArg Prod.fst heq, congrArg Prod.snd heq⟩

theorem c2_occupancy_invariant_witness : OccupancyOk demo1 :=
  c2_occupancy_invariant demo1 (Reachable.place 0 0 0 (Reachable.start demoArena))

/-! ## C4 -/

/-- C4: `endTurn` flips `currentTurn` exactly once (player to ai, anything
else to player), leaves the roster list unchanged, resets movement and
attack for every roster unit owned by the new turn, and leaves every
roster unit owned by the other side entirely unchanged. -/
theorem c4_endTurn_resets (s : MapState) :
    (endTurn s).currentTurn = (if s.currentTurn = "player" then "ai" else "player") ∧
    (endTurn s).units = s.units ∧
    ∀ uid, uid ∈ s.units →
      ((s.unitOf uid).owner = (endTurn s).currentTurn →
        ((endTurn s).unitOf uid).movementRemaining = (s.unitOf uid).movement ∧
        ((endTurn s).unitOf uid).hasAttacked = false) ∧
      ((s.unitOf uid).owner ≠ (endTurn s).currentTurn →
        (endTurn s).unitOf uid = s.unitOf uid) := by
  refine ⟨rfl, rfl, ?_⟩
  intro uid hmem
  have hcont : s.units.contains uid = true := by
    simpa using hmem
  have harena : ∀ j, (endTurn s).unitOf j =
      (if s.units.contains j && decide ((s.unitOf j).owner =
        (if s.currentTurn = "player" then "ai" else "player"))
      then (s.unitOf j).resetTurn else s.unitOf j) := fun j => rfl
  constructor
  · intro howner
    have hd : decide ((s.unitOf uid).owner =
        (if s.currentTurn = "player" then "ai" else "player")) = true := by
      rw [decide_eq_true_eq]
      exact howner
    rw [harena, hcont, hd]
    exact ⟨rfl, rfl⟩
  · intro howner
    have hd : decide ((s.unitOf uid).owner =
        (if s.currentTurn = "player" then "ai" else "player")) = false := by
      rw [decide_eq_false_iff_not]
      exact howner
    rw [harena, hd]
    simp

/-- Witness: after `endTurn` from a state holding the AI mage (unit 0) and
the player soldier (unit 1) in the roster, the new turn is "ai", the mage
is reset and the soldier untouched. -/
theorem c4_endTurn_resets_witness :
    ((endTurn demoRoster).unitOf 0).movementRemaining = (demoRoster.unitOf 0).movement ∧
    ((endTurn demoRoster).unitOf 0).hasAttacked = false ∧
    (endTurn demoRoster).unitOf 1 = demoRoster.unitOf 1 := by
  obtain ⟨hturn, _, hro⟩ := c4_endTurn_resets demoRoster
  have h0 := (hro 0 (by decide)).1 (by rw [hturn]; decide)
  have h1 := (hro 1 (by decide)).2 (by rw [hturn]; decide)
  exact ⟨h0.1, h0.2, h1⟩

/-! ## C8 -/

/-- C8 counterexample: `addUnit` has no membership check; adding unit 0
when it is already in the roster appends a second copy, so the roster
changes and holds unit 0 twice. -/
theorem c8_addUnit_counterexample :
    (0 ∈ demoRoster.units) ∧
    (addUnit demoRoster (some 0)).1.units ≠ demoRoster.units ∧
    (addUnit demoRoster (some 0)).1.units.count 0 = 2 := by
  refine ⟨by decide, ?_, by decide⟩
  decide

/-- C8 amended: `addUnit(u)` for non-null `u` always appends `u` to the
roster (even when already present) and returns true, so a unit can occur
multiple times; `addUnit(null)` fails with no change. -/
theorem c8_addUnit_amended (s : MapState) (uid : Nat) :
    (addUnit s (some uid)).1.units = s.units ++ [uid] ∧
    (addUnit s (some uid)).2 = true ∧
    addUnit s none = (s, false) :=
  ⟨rfl, rfl, rfl⟩

/-! ## C9 -/

/-- The numeric in-bounds test corresponding to the double bounds check of
`cellExists`/`toggleCellState`. -/
def inBounds (cells : Grid) (r c : Int) : Bool :=
  decide (0 ≤ r) && decide (r.toNat < cells.length) &&
  decide (0 ≤ c) && decide (c.toNat < (cells.getD r.toNat []).length)

theorem inBounds_iff (cells : Grid) (r c : Int) :
    inBounds cells r c = true ↔ ∃ cell, getCellRaw cells r c = some cell := by
  unfold inBounds getCellRaw
  by_cases hr : 0 ≤ r
  · by_cases hc : 0 ≤ c
    · cases hrow : cells[r.toNat]? with
      | none =>
        have hge : cells.length ≤ r.toNat := List.getElem?_eq_none_iff.mp hrow
        have hlt : ¬ r.toNat < cells.length := by omega
        simp [hr, hc, hlt]
      | some row =>
        have hlt : r.toNat < cells.length := by
          by_contra hge
          rw [List.getElem?_eq_none_iff.mpr (by omega)] at hrow
          cases hrow
        have hgd : cells.getD r.toNat [] = row := by
          rw [List.getD_eq_getElem?_getD, hrow]
          rfl
        rw [decide_eq_true hr, decide_eq_true hc, decide_eq_true hlt, hgd, if_pos hr]
        simp only [Bool.true_and, Bool.and_true, hrow, if_pos hc]
        constructor
        · intro hb
          have hcl : c.toNat < row.length := by simpa using hb
          exact ⟨row[c.toNat], List.getElem?_eq_getElem hcl⟩
        · rintro ⟨cell, hcell⟩
          have := (List.getElem?_eq_some_iff.mp hcell).1
          simpa using this
    · constructor
      · intro hb
        rw [decide_eq_false hc] at hb
        simp at hb
      · rintro ⟨cell, hcell⟩
        rw [if_pos hr] at hcell
        cases h2 : cells[r.toNat]? with
        | none => rw [h2] at hcell; cases hcell
        | some row =>
          rw [h2] at hcell
          dsimp only at hcell
          rw [if_neg hc] at hcell
          cases hcell
  · simp [hr]

/-- C9 counterexample: cell (1, 1) of the initialized grid is within the
grid's bounds and a cell object is stored there, yet `getCell` returns
null (the cell is invisible), contradicting the claim that `getCell`
returns null exactly when out of bounds. -/
theorem c9_getCell_counterexample :
    inBounds (initCells defaultGridConfig) 1 1 = true ∧
    (getCellRaw (initCells defaultGridConfig) 1 1).isSome = true ∧
    getCell (initCells defaultGridConfig) 1 1 = none := by
  refine ⟨by decide, by decide, by decide⟩

/-- C9 amended: `getCell` returns the stored cell iff the coordinates are
in bounds and the stored cell is visible; it returns null when out of
bounds or when the stored cell is invisible; `cellExists` is false for
all out-of-bounds coordinates (`inBounds` matches the bounds checks:
a cell is stored at (r, c) iff `inBounds`). -/
theorem c9_getCell_amended (cells : Grid) (r c : Int) :
    (inBounds cells r c = false → getCell cells r c = none ∧ cellExists cells r c = false) ∧
    (∀ cell, getCellRaw cells r c = some cell →
      getCell cells r c = (if cell.isVisible then some cell else none)) ∧
    (inBounds cells r c = true ↔ ∃ cell, getCellRaw cells r c = some cell) := by
  refine ⟨?_, ?_, inBounds_iff cells r c⟩
  · intro hb
    have hraw : getCellRaw cells r c = none := by
      cases hraw : getCellRaw cells r c with
      | none => rfl
      | some cell =>
        have : inBounds cells r c = true := (inBounds_iff cells r c).mpr ⟨cell, hraw⟩
        rw [this] at hb
        cases hb
    have hex : cellExists cells r c = false := by
      unfold cellExists
      rw [hraw]
    refine ⟨?_, hex⟩
    unfold getCell
    rw [hex]
    rfl
  · intro cell hcell
    by_cases hv : cell.isVisible = true
    · rw [if_pos hv]
      exact getCell_eq_some_iff.mpr ⟨hcell, hv⟩
    · rw [Bool.not_eq_true] at hv
      rw [hv]
      have hex : cellExists cells r c = false := by
        unfold cellExists
        rw [hcell]
        dsimp only
        exact hv
      unfold getCell
      rw [hex]
      rfl

/-- Witness for the amended C9: out-of-bounds (10, 0) yields null and
false on the initialized grid. -/
theorem c9_getCell_amended_witness :
    getCell (initCells defaultGridConfig) 10 0 = none ∧
    cellExists (initCells defaultGridConfig) 10 0 = false :=
  (c9_getCell_amended (initCells defaultGridConfig) 10 0).1 (by decide)

/-! ## C5 -/

/-- The state with cell (0, 0) toggled active. -/
def demoActive : MapState := (toggleCellState demo0 0 0).1

/-- C5 counterexample: two operations report the listed "failure" values
while mutating state.  Toggling the active visible cell (0, 0) returns
false (the new activation state) yet changes the grid; `performAttack` on
a unit with attack 0 returns 0 yet sets `hasAttacked`. -/
theorem c5_failure_counterexample :
    ((toggleCellState demoActive 0 0).2 = false ∧
      (toggleCellState demoActive 0 0).1.cells ≠ demoActive.cells) ∧
    ((mkUnit "soldier" "player" 10 0 2).performAttack.2 = 0 ∧
      (mkUnit "soldier" "player" 10 0 2).performAttack.1 ≠ mkUnit "soldier" "player" 10 0 2) := by
  refine ⟨⟨by decide, by decide⟩, ⟨by decide, by decide⟩⟩

/-- C5 amended: the no-partial-mutation guarantee holds for each genuine
failure: `toggleCellState` on an out-of-bounds or invisible cell,
`placeUnit`/`moveUnit`/`removeUnit`/`Unit.move` whenever they return
false, and `performAttack` when the unit has already attacked.  (The
returned false of a successful toggle-to-inactive and the returned 0 of a
zero-attack unit's successful attack are not failures.) -/
theorem c5_failure_amended :
    (∀ (s : MapState) (r c : Int), cellExists s.cells r c = false →
      toggleCellState s r c = (s, false)) ∧
    (∀ (s : MapState) (uid : Nat) (r c : Int), (placeUnit s uid r c).2 = false →
      (placeUnit s uid r c).1 = s) ∧
    (∀ (s : MapState) (u : Option Nat) (r c : Int), (moveUnit s u r c).2 = false →
      (moveUnit s u r c).1 = s) ∧
    (∀ (s : MapState) (u : Option Nat), (removeUnit s u).2 = false →
      (removeUnit s u).1 = s) ∧
    (∀ (u : GameUnit) (row col cost : Int), (u.move row col cost).2 = false →
      (u.move row col cost).1 = u) ∧
    (∀ u : GameUnit, u.hasAttacked = true → u.performAttack = (u, 0)) :=
  ⟨toggleCellState_fail, placeUnit_fail, moveUnit_fail, removeUnit_fail,
    fun _ _ _ _ h => (GameUnit.move_false h).2, performAttack_fail⟩

theorem c5_failure_amended_witness :
    toggleCellState demo0 (-1) 0 = (demo0, false) ∧
    (placeUnit demo0 0 (-1) 0).1 = demo0 ∧
    (moveUnit demo0 (some 0) 1 1).1 = demo0 ∧
    (removeUnit demo0 (some 0)).1 = demo0 ∧
    ((createUnit "mage" "player").move 0 0 2).1 = createUnit "mage" "player" ∧
    ({ mkUnit "soldier" "player" 10 3 2 with hasAttacked := true }).performAttack =
      ({ mkUnit "soldier" "player" 10 3 2 with hasAttacked := true }, 0) := by
  obtain ⟨ht, hp, hm, hr, hmv, hpa⟩ := c5_failure_amended
  exact ⟨ht demo0 (-1) 0 (by decide), hp demo0 0 (-1) 0 (by decide),
    hm demo0 (some 0) 1 1 (by decide), hr demo0 (some 0) (by decide),
    hmv (createUnit "mage" "player") 0 0 2 (by decide),
    hpa { mkUnit "soldier" "player" 10 3 2 with hasAttacked := true } (by decide)⟩

/-! ## C6 counterexample -/

/-- The state after `endTurn` from `demo1`: it is the AI's turn and the
AI mage (unit 0) stands at (0, 0) with its movement refreshed. -/
def demoAI : MapState := endTurn demo1

/-- C6 counterexample: with `currentTurn = "ai"`, calling `moveUnit`
directly still succeeds and mutates the grid — `moveUnit` itself contains
no turn check. -/
theorem c6_gating_counterexample :
    demoAI.currentTurn = "ai" ∧
    (moveUnit demoAI (some 0) 0 1).2 = true ∧
    (moveUnit demoAI (some 0) 0 1).1.cells ≠ demoAI.cells := by
  refine ⟨by decide, by decide, by decide⟩

/-! ## Characterization of `moveUnit` -/

theorem ite_cond_true {α : Sort _} {b : Bool} (h : b = true) (x y : α) :
    (if b = true then x else y) = x := by
  rw [h]
  rfl

theorem ite_cond_false {α : Sort _} {b : Bool} (h : b = false) (x y : α) :
    (if b = true then x else y) = y := by
  rw [h]
  rfl

/-- The unit record produced by a successful `Unit.move` with cost 1. -/
def movedUnit (u : GameUnit) (r c : Int) : GameUnit :=
  { u with position := (r, c), movementRemaining := u.movementRemaining - 1 }

theorem sameCore_unitAt {g g' : Grid} (h : SameCore g g') {r c : Int} {cell' : Cell}
    (h' : getCellRaw g' r c = some cell') :
    ∃ cell, getCellRaw g r c = some cell ∧ cell.unit = cell'.unit := by
  obtain ⟨cell, hcell, hcore⟩ := sameCore_getCellRaw h h'
  simp only [cellCore, Prod.mk.injEq] at hcore
  exact ⟨cell, hcell, hcore.2.2.1⟩

theorem after_clear_highlight_unitOf (s3 : MapState) (uid : Nat) :
    (if 0 < ((clearHighlightedCells s3).unitOf uid).movementRemaining
      then highlightMovementRange (clearHighlightedCells s3) (some uid)
      else clearHighlightedCells s3).unitOf = s3.unitOf := by
  split
  · exact (highlight_sameCore _ _).2
  · rfl

theorem after_clear_highlight_sameCore (s3 : MapState) (uid : Nat) :
    SameCore s3.cells
      (if 0 < ((clearHighlightedCells s3).unitOf uid).movementRemaining
        then highlightMovementRange (clearHighlightedCells s3) (some uid)
        else clearHighlightedCells s3).cells := by
  split
  · exact SameCore.trans (clearHighlighted_sameCore s3) (highlight_sameCore _ _).1
  · exact clearHighlighted_sameCore s3

/-- Full success/effect characterization of `moveUnit` on a non-null unit:
it succeeds iff the target exists (visible) and is unoccupied and the unit
has at least 1 movement left; on success the unit's position becomes the
target, its movement drops by exactly 1 (the fixed cost), and the grid is,
up to highlight flags, the original grid with the unit's previous cell
cleared and the target cell referencing the unit. -/
theorem moveUnit_spec (s : MapState) (uid : Nat) (r c : Int) :
    ((moveUnit s (some uid) r c).2 = true ↔
      (∃ tc, getCell s.cells r c = some tc ∧ tc.unit = none) ∧
      1 ≤ (s.unitOf uid).movementRemaining) ∧
    ((moveUnit s (some uid) r c).2 = true →
      (moveUnit s (some uid) r c).1.unitOf =
        updUnit s.unitOf uid (movedUnit (s.unitOf uid) r c) ∧
      SameCore (setCell (clearAtPos s.cells (s.unitOf uid).position) r c
          (fun cl => { cl with unit := some uid }))
        (moveUnit s (some uid) r c).1.cells) := by
  unfold moveUnit
  dsimp only
  cases hg : getCell s.cells r c with
  | none =>
    dsimp only
    constructor
    · constructor
      · intro hfalse
        cases hfalse
      · rintro ⟨⟨tc, htc, _⟩, _⟩
        cases htc
    · intro hfalse
      cases hfalse
  | some tc =>
    dsimp only
    have hvis : tc.isVisible = true := (getCell_eq_some_iff.mp hg).2
    by_cases hguard : (!tc.isVisible || tc.unit.isSome) = true
    · rw [ite_cond_true hguard]
      have hocc : tc.unit.isSome = true := by
        rw [hvis] at hguard
        simpa using hguard
      constructor
      · constructor
        · intro hfalse
          cases hfalse
        · rintro ⟨⟨tc', htc', hnone'⟩, _⟩
          cases htc'
          rw [hnone'] at hocc
          cases hocc
      · intro hfalse
        cases hfalse
    · rw [Bool.not_eq_true] at hguard
      rw [ite_cond_false hguard]
      have hnone : tc.unit = none := by
        have hocc : tc.unit.isSome = false := by
          rcases Bool.or_eq_false_iff.mp hguard with ⟨_, h2⟩
          exact h2
        cases htcu : tc.unit with
        | none => rfl
        | some z => rw [htcu] at hocc; cases hocc
      by_cases hmv : ((s.unitOf uid).move r c 1).2 = true
      · rw [ite_cond_true hmv]
        obtain ⟨hcost, hmoved⟩ := GameUnit.move_true hmv
        constructor
        · constructor
          · intro _
            exact ⟨⟨tc, rfl, hnone⟩, hcost⟩
          · intro _
            rfl
        · intro _
          cases hold : getCell s.cells (s.unitOf uid).position.1 (s.unitOf uid).position.2 with
          | none =>
            have hclear : clearAtPos s.cells (s.unitOf uid).position = s.cells := by
              unfold clearAtPos
              rw [hold]
            constructor
            · dsimp only
              rw [after_clear_highlight_unitOf]
              show updUnit s.unitOf uid ((s.unitOf uid).move r c 1).1 = _
              rw [hmoved]
              rfl
            · dsimp only
              rw [hclear]
              exact after_clear_highlight_sameCore _ uid
          | some oldcl =>
            have hclear : clearAtPos s.cells (s.unitOf uid).position =
                setCell s.cells (s.unitOf uid).position.1 (s.unitOf uid).position.2
                  (fun cl => { cl with unit := none }) := by
              unfold clearAtPos
              rw [hold]
            constructor
            · dsimp only
              rw [after_clear_highlight_unitOf]
              show updUnit s.unitOf uid ((s.unitOf uid).move r c 1).1 = _
              rw [hmoved]
              rfl
            · dsimp only
              rw [hclear]
              exact after_clear_highlight_sameCore _ uid
      · rw [Bool.not_eq_true] at hmv
        rw [ite_cond_false hmv]
        constructor
        · constructor
          · intro hfalse
            cases hfalse
          · rintro ⟨_, hmr⟩
            exact absurd hmr (GameUnit.move_false hmv).1
        · intro hfalse
          cases hfalse

/-- Looking up the target coordinates after the two reference updates of a
successful move yields a cell referencing the moved unit. -/
theorem placed_grid_target_unit {g : Grid} (p : Int × Int) (r c : Int) {tc : Cell}
    (htc : getCellRaw g r c = some tc) :
    ∀ cell, getCellRaw (setCell (clearAtPos g p) r c
        (fun cl => { cl with unit := some uid })) r c = some cell →
      cell.unit = some uid := by
  intro cell hcell
  rw [getCellRaw_setCell_same] at hcell
  cases hmid : getCellRaw (clearAtPos g p) r c with
  | none => rw [hmid] at hcell; cases hcell
  | some cellm =>
    rw [hmid] at hcell
    simp only [Option.map_some', Option.some.injEq] at hcell
    rw [← hcell]

/-- Looking up the unit's previous (distinct, existing) cell after the two
reference updates of a successful move yields an empty cell. -/
theorem placed_grid_old_cleared {g : Grid} (p : Int × Int) (r c : Int) (uid : Nat)
    {oldCell : Cell} (hold : getCell g p.1 p.2 = some oldCell) (hne : ¬(p.1 = r ∧ p.2 = c)) :
    ∀ cell, getCellRaw (setCell (clearAtPos g p) r c
        (fun cl => { cl with unit := some uid })) p.1 p.2 = some cell →
      cell.unit = none := by
  intro cell hcell
  rw [getCellRaw_setCell_ne _ _ _ _ _ _ hne] at hcell
  unfold clearAtPos at hcell
  rw [hold, getCellRaw_setCell_same] at hcell
  cases hmid : getCellRaw g p.1 p.2 with
  | none => rw [hmid] at hcell; cases hcell
  | some cellm =>
    rw [hmid] at hcell
    simp only [Option.map_some', Option.some.injEq] at hcell
    rw [← hcell]

/-! ## C1 -/

/-- C1 counterexample: the mage at (0, 0) has `movementRemaining = 1`, and
cell (0, 3) is outside the empty-or-self range of radius 1 computed by the
engine's own range query, yet `moveUnit` to (0, 3) succeeds (it performs no
distance check and charges a flat cost of 1, not the path cost 3). -/
theorem c1_moveUnit_counterexample :
    (demo1.unitOf 0).movementRemaining = 1 ∧
    ((getCellsInRange demo1.cells 0 0 1
      (fun cl => cl.unit = some 0 || cl.unit = none)).all
        (fun cl => !(cl.rowIndex = 0 && cl.cellIndex = 3))) = true ∧
    (moveUnit demo1 (some 0) 0 3).2 = true ∧
    ((moveUnit demo1 (some 0) 0 3).1.unitOf 0).movementRemaining = 0 := by
  refine ⟨by decide, by decide, by decide, by decide⟩

/-- C1 amended: `moveUnit(u, r, c)` succeeds iff `u` is non-null, the cell
(r, c) exists (in bounds and visible) and is unoccupied, and
`u.movementRemaining ≥ 1`; no hex-distance or reachability condition is
checked.  On success `u.movementRemaining` decreases by exactly the fixed
cost 1 (not the path cost), `u.position` becomes (r, c), the target cell's
unit reference becomes `u`, and the unit's former cell (when it exists and
differs from the target) has its unit reference cleared. -/
theorem c1_moveUnit_amended (s : MapState) (uid : Nat) (r c : Int) :
    ((moveUnit s (some uid) r c).2 = true ↔
      (∃ tc, getCell s.cells r c = some tc ∧ tc.unit = none) ∧
      1 ≤ (s.unitOf uid).movementRemaining) ∧
    (moveUnit s none r c = (s, false)) ∧
    ((moveUnit s (some uid) r c).2 = true →
      ((moveUnit s (some uid) r c).1.unitOf uid).position = (r, c) ∧
      ((moveUnit s (some uid) r c).1.unitOf uid).movementRemaining =
        (s.unitOf uid).movementRemaining - 1 ∧
      (∀ cell, getCellRaw (moveUnit s (some uid) r c).1.cells r c = some cell →
        cell.unit = some uid) ∧
      (¬((s.unitOf uid).position.1 = r ∧ (s.unitOf uid).position.2 = c) →
        ∀ oldCell, getCell s.cells (s.unitOf uid).position.1
          (s.unitOf uid).position.2 = some oldCell →
        ∀ cell, getCellRaw (moveUnit s (some uid) r c).1.cells
          (s.unitOf uid).position.1 (s.unitOf uid).position.2 = some cell →
          cell.unit = none)) := by
  obtain ⟨hiff, heff⟩ := moveUnit_spec s uid r c
  refine ⟨hiff, rfl, ?_⟩
  intro hsucc
  obtain ⟨harena, hsc⟩ := heff hsucc
  obtain ⟨⟨tc, htc, _⟩, _⟩ := hiff.mp hsucc
  have htcraw : getCellRaw s.cells r c = some tc := (getCell_eq_some_iff.mp htc).1
  refine ⟨?_, ?_, ?_, ?_⟩
  · rw [harena]
    simp [updUnit, movedUnit]
  · rw [harena]
    simp [updUnit, movedUnit]
  · intro cell hcell
    obtain ⟨cellX, hX, hXu⟩ := sameCore_unitAt hsc hcell
    rw [← hXu]
    exact placed_grid_target_unit (s.unitOf uid).position r c htcraw cellX hX
  · intro hne oldCell holdc cell hcell
    obtain ⟨cellX, hX, hXu⟩ := sameCore_unitAt hsc hcell
    rw [← hXu]
    exact placed_grid_old_cleared (s.unitOf uid).position r c uid holdc hne cellX hX

theorem c1_moveUnit_amended_witness :
    (moveUnit demo1 (some 0) 0 1).2 = true ∧
    ((moveUnit demo1 (some 0) 0 1).1.unitOf 0).position = (0, 1) ∧
    (∀ cell, getCellRaw (moveUnit demo1 (some 0) 0 1).1.cells 0 1 = some cell →
      cell.unit = some 0) := by
  obtain ⟨hiff, _, heff⟩ := c1_moveUnit_amended demo1 0 0 1
  have hs : (moveUnit demo1 (some 0) 0 1).2 = true := by decide
  obtain ⟨hpos, _, htarget, _⟩ := heff hs
  exact ⟨hs, hpos, htarget⟩

/-! ## C10 -/

/-- C10: `moveUnit` does not require the unit to occupy a cell: an unplaced
unit (sentinel position (-1, -1)) with at least 1 movement remaining can be
introduced onto any existing, visible, unoccupied cell; on success its
position becomes the target, the target cell references it, and its
movement decreases by exactly 1. -/
theorem c10_moveUnit_unplaced (s : MapState) (uid : Nat) (r c : Int) (tc : Cell)
    (hpos : (s.unitOf uid).position = (-1, -1))
    (hmr : 1 ≤ (s.unitOf uid).movementRemaining)
    (htc : getCell s.cells r c = some tc) (hunocc : tc.unit = none) :
    (moveUnit s (some uid) r c).2 = true ∧
    ((moveUnit s (some uid) r c).1.unitOf uid).position = (r, c) ∧
    ((moveUnit s (some uid) r c).1.unitOf uid).movementRemaining =
      (s.unitOf uid).movementRemaining - 1 ∧
    ∀ cell, getCellRaw (moveUnit s (some uid) r c).1.cells r c = some cell →
      cell.unit = some uid := by
  obtain ⟨hiff, heff⟩ := moveUnit_spec s uid r c
  have hsucc : (moveUnit s (some uid) r c).2 = true :=
    hiff.mpr ⟨⟨tc, htc, hunocc⟩, hmr⟩
  obtain ⟨harena, hsc⟩ := heff hsucc
  have htcraw : getCellRaw s.cells r c = some tc := (getCell_eq_some_iff.mp htc).1
  refine ⟨hsucc, ?_, ?_, ?_⟩
  · rw [harena]
    simp [updUnit, movedUnit]
  · rw [harena]
    simp [updUnit, movedUnit]
  · intro cell hcell
    obtain ⟨cellX, hX, hXu⟩ := sameCore_unitAt hsc hcell
    rw [← hXu]
    exact placed_grid_target_unit (s.unitOf uid).position r c htcraw cellX hX

theorem c10_moveUnit_unplaced_witness :
    (moveUnit demo0 (some 5) 2 2).2 = true ∧
    ((moveUnit demo0 (some 5) 2 2).1.unitOf 5).position = (2, 2) ∧
    ((moveUnit demo0 (some 5) 2 2).1.unitOf 5).movementRemaining =
      (demo0.unitOf 5).movementRemaining - 1 ∧
    ∀ cell, getCellRaw (moveUnit demo0 (some 5) 2 2).1.cells 2 2 = some cell →
      cell.unit = some 5 :=
  c10_moveUnit_unplaced demo0 5 2 2
    { rowIndex := 2, cellIndex := 2, isVisible := true, isActive := false,
      isHighlighted := false, unit := none }
    (by decide) (by decide) (by decide) (by decide)

/-! ## C6 amended: moveUnit is independent of currentTurn -/

theorem highlight_fields (s : MapState) (u : Option Nat) :
    (highlightMovementRange s u).units = s.units ∧
    (highlightMovementRange s u).selectedUnit = s.selectedUnit ∧
    (highlightMovementRange s u).currentTurn = s.currentTurn := by
  unfold highlightMovementRange
  cases u with
  | none => exact ⟨rfl, rfl, rfl⟩
  | some uid =>
    dsimp only
    by_cases hm : (s.unitOf uid).movementRemaining ≤ 0
    · rw [if_pos hm]
      exact ⟨rfl, rfl, rfl⟩
    · rw [if_neg hm]
      exact ⟨rfl, rfl, rfl⟩

theorem highlight_congr {s1 s2 : MapState} (hc : s1.cells = s2.cells)
    (hu : s1.unitOf = s2.unitOf) (u : Option Nat) :
    (highlightMovementRange s1 u).cells = (highlightMovementRange s2 u).cells := by
  unfold highlightMovementRange
  cases u with
  | none => exact hc
  | some uid =>
    dsimp only
    rw [hu, hc]
    by_cases hm : (s2.unitOf uid).movementRemaining ≤ 0
    · rw [if_pos hm, if_pos hm]
      exact hc
    · rw [if_neg hm, if_neg hm]

theorem finish_cells_congr (X Y : MapState) (uid : Nat)
    (hc : X.cells = Y.cells) (hu : X.unitOf = Y.unitOf) :
    (if 0 < ((clearHighlightedCells X).unitOf uid).movementRemaining
      then highlightMovementRange (clearHighlightedCells X) (some uid)
      else clearHighlightedCells X).cells =
    (if 0 < ((clearHighlightedCells Y).unitOf uid).movementRemaining
      then highlightMovementRange (clearHighlightedCells Y) (some uid)
      else clearHighlightedCells Y).cells := by
  have hcu : (clearHighlightedCells X).unitOf = (clearHighlightedCells Y).unitOf := hu
  have hcc : (clearHighlightedCells X).cells = (clearHighlightedCells Y).cells := by
    show X.cells.map _ = Y.cells.map _
    rw [hc]
  by_cases hm : 0 < ((clearHighlightedCells Y).unitOf uid).movementRemaining
  · rw [hcu, if_pos hm, if_pos hm]
    exact highlight_congr hcc hcu _
  · rw [hcu, if_neg hm, if_neg hm]
    exact hcc

theorem finish_misc (X : MapState) (uid : Nat) :
    (if 0 < ((clearHighlightedCells X).unitOf uid).movementRemaining
      then highlightMovementRange (clearHighlightedCells X) (some uid)
      else clearHighlightedCells X).units = X.units ∧
    (if 0 < ((clearHighlightedCells X).unitOf uid).movementRemaining
      then highlightMovementRange (clearHighlightedCells X) (some uid)
      else clearHighlightedCells X).selectedUnit = X.selectedUnit ∧
    (if 0 < ((clearHighlightedCells X).unitOf uid).movementRemaining
      then highlightMovementRange (clearHighlightedCells X) (some uid)
      else clearHighlightedCells X).currentTurn = X.currentTurn := by
  split
  · exact ⟨(highlight_fields _ _).1, (highlight_fields _ _).2.1, (highlight_fields _ _).2.2⟩
  · exact ⟨rfl, rfl, rfl⟩

theorem finish_units_congr (X Y : MapState) (uid : Nat) (h : X.units = Y.units) :
    (if 0 < ((clearHighlightedCells X).unitOf uid).movementRemaining
      then highlightMovementRange (clearHighlightedCells X) (some uid)
      else clearHighlightedCells X).units =
    (if 0 < ((clearHighlightedCells Y).unitOf uid).movementRemaining
      then highlightMovementRange (clearHighlightedCells Y) (some uid)
      else clearHighlightedCells Y).units :=
  ((finish_misc X uid).1).trans (h.trans ((finish_misc Y uid).1).symm)

theorem finish_selected_congr (X Y : MapState) (uid : Nat) (h : X.selectedUnit = Y.selectedUnit) :
    (if 0 < ((clearHighlightedCells X).unitOf uid).movementRemaining
      then highlightMovementRange (clearHighlightedCells X) (some uid)
      else clearHighlightedCells X).selectedUnit =
    (if 0 < ((clearHighlightedCells Y).unitOf uid).movementRemaining
      then highlightMovementRange (clearHighlightedCells Y) (some uid)
      else clearHighlightedCells Y).selectedUnit :=
  ((finish_misc X uid).2.1).trans (h.trans ((finish_misc Y uid).2.1).symm)


/-- C6 amended: `moveUnit` performs no `currentTurn` check.  Its success
result and every component of its state effect are identical whatever
`currentTurn` holds, and it never modifies `currentTurn`; in particular it
can succeed while `currentTurn` is "ai".  (Turn-gating of input lives only
in the interaction layer's click handler.) -/
theorem c6_turn_independence (s : MapState) (u : Option Nat) (r c : Int) (t : String) :
    (moveUnit { s with currentTurn := t } u r c).2 = (moveUnit s u r c).2 ∧
    (moveUnit { s with currentTurn := t } u r c).1.cells = (moveUnit s u r c).1.cells ∧
    (moveUnit { s with currentTurn := t } u r c).1.unitOf = (moveUnit s u r c).1.unitOf ∧
    (moveUnit { s with currentTurn := t } u r c).1.units = (moveUnit s u r c).1.units ∧
    (moveUnit { s with currentTurn := t } u r c).1.selectedUnit =
      (moveUnit s u r c).1.selectedUnit ∧
    (moveUnit { s with currentTurn := t } u r c).1.currentTurn = t ∧
    (moveUnit s u r c).1.currentTurn = s.currentTurn := by
  unfold moveUnit
  cases u with
  | none => exact ⟨rfl, rfl, rfl, rfl, rfl, rfl, rfl⟩
  | some uid =>
    dsimp only
    cases hg : getCell s.cells r c with
    | none => exact ⟨rfl, rfl, rfl, rfl, rfl, rfl, rfl⟩
    | some tc =>
      dsimp only
      by_cases hguard : (!tc.isVisible || tc.unit.isSome) = true
      · rw [ite_cond_true hguard, ite_cond_true hguard]
        exact ⟨rfl, rfl, rfl, rfl, rfl, rfl, rfl⟩
      · rw [Bool.not_eq_true] at hguard
        rw [ite_cond_false hguard, ite_cond_false hguard]
        by_cases hmv : ((s.unitOf uid).move r c 1).2 = true
        · rw [ite_cond_true hmv, ite_cond_true hmv]
          cases hold : getCell s.cells (s.unitOf uid).position.1 (s.unitOf uid).position.2 with
          | none =>
            dsimp only
            refine ⟨rfl, finish_cells_congr _ _ uid rfl rfl, ?_, ?_, ?_, ?_, ?_⟩
            · rw [after_clear_highlight_unitOf, after_clear_highlight_unitOf]
            · exact finish_units_congr _ _ uid rfl
            · exact finish_selected_congr _ _ uid rfl
            · exact (finish_misc _ _).2.2
            · exact (finish_misc _ _).2.2
          | some oldcl =>
            dsimp only
            refine ⟨rfl, finish_cells_congr _ _ uid rfl rfl, ?_, ?_, ?_, ?_, ?_⟩
            · rw [after_clear_highlight_unitOf, after_clear_highlight_unitOf]
            · exact finish_units_congr _ _ uid rfl
            · exact finish_selected_congr _ _ uid rfl
            · exact (finish_misc _ _).2.2
            · exact (finish_misc _ _).2.2
        · rw [Bool.not_eq_true] at hmv
          rw [ite_cond_false hmv, ite_cond_false hmv]
          exact ⟨rfl, rfl, rfl, rfl, rfl, rfl, rfl⟩

/-! ## C7 -/

theorem rangeLoop_nil (cells : Grid) (pred : Cell → Bool) (range : Int) (fuel : Nat)
    (visited : List (Int × Int)) (result : List Cell) :
    rangeLoop cells pred range fuel [] visited result = result := by
  cases fuel <;> rfl

theorem rangeLoop_cons (cells : Grid) (pred : Cell → Bool) (range : Int) (fuel : Nat)
    (r c dist : Int) (queue : List (Int × Int × Int)) (visited : List (Int × Int))
    (result : List Cell) :
    rangeLoop cells pred range (fuel + 1) ((r, c, dist) :: queue) visited result =
      (match getCell cells r c with
       | none => rangeLoop cells pred range fuel queue visited result
       | some cell =>
         if !cell.isVisible || !pred cell then
           rangeLoop cells pred range fuel queue visited result
         else if visited.contains (r, c) then
           rangeLoop cells pred range fuel queue visited result
         else
           if range ≤ dist then
             rangeLoop cells pred range fuel queue ((r, c) :: visited) (result ++ [cell])
           else
             rangeLoop cells pred range fuel
               (queue ++ (hexNeighbors r c).map (fun p => (p.1, p.2, dist + 1)))
               ((r, c) :: visited) (result ++ [cell])) := rfl

/-- C7: a range-0 query returns exactly the singleton of the origin cell
when it exists, is visible and passes the predicate, and the empty list
otherwise; a negative range, or an origin that does not exist or is
invisible, yields the empty list. -/
theorem c7_range_zero (cells : Grid) (r c : Int) (pred : Cell → Bool) :
    (∀ range : Int, range < 0 → getCellsInRange cells r c range pred = []) ∧
    (cellExists cells r c = false → ∀ range : Int, getCellsInRange cells r c range pred = []) ∧
    (getCellsInRange cells r c 0 pred =
      match getCell cells r c with
      | some cell => if pred cell then [cell] else []
      | none => []) := by
  refine ⟨?_, ?_, ?_⟩
  · intro range hneg
    unfold getCellsInRange
    rw [decide_eq_true hneg]
    rfl
  · intro hex range
    unfold getCellsInRange
    rw [hex]
    simp only [Bool.not_false, Bool.or_true]
    rfl
  · unfold getCellsInRange
    by_cases hex : cellExists cells r c = true
    · rw [hex]
      have hcond : (decide ((0 : Int) < 0) || !true) = false := by decide
      rw [hcond]
      simp only [Bool.false_eq_true, if_false]
      have h7 : (7 : Nat) ^ ((0 : Int).toNat + 1) = 6 + 1 := by norm_num
      rw [h7, rangeLoop_cons]
      cases hgc : getCell cells r c with
      | none => rfl
      | some cell =>
        have hvis : cell.isVisible = true := (getCell_eq_some_iff.mp hgc).2
        dsimp only
        by_cases hp : pred cell = true
        · simp [hp, hvis, rangeLoop_nil]
        · rw [Bool.not_eq_true] at hp
          simp [hp, hvis, rangeLoop_nil]
    · rw [Bool.not_eq_true] at hex
      rw [hex]
      simp only [Bool.not_false, Bool.or_true]
      have hgc : getCell cells r c = none := by
        unfold getCell
        rw [hex]
        rfl
      rw [hgc]
      rfl

theorem c7_range_zero_witness :
    ((0 : Int) > -1 ∧ getCellsInRange (initCells defaultGridConfig) 2 2 (-1) (fun _ => true) = []) ∧
    getCellsInRange (initCells defaultGridConfig) 1 1 0 (fun _ => true) = [] := by
  obtain ⟨hneg, hinv, _⟩ := c7_range_zero (initCells defaultGridConfig) 2 2 (fun _ => true)
  obtain ⟨_, hinv2, _⟩ := c7_range_zero (initCells defaultGridConfig) 1 1 (fun _ => true)
  exact ⟨⟨by decide, hneg (-1) (by decide)⟩, hinv2 (by decide) 0⟩

/-! ## C3: soundness of the bounded flood fill -/

/-- Admissible paths: the cell at (r, c) is reached from the origin
(r0, c0) by a path of `n` hex-steps all of whose cells (origin included)
exist, are visible, and pass the predicate. -/
inductive AdmReach (cells : Grid) (pred : Cell → Bool) (r0 c0 : Int) :
    Int → Int → Nat → Prop
  | origin (cell : Cell) (h : getCell cells r0 c0 = some cell) (hp : pred cell = true) :
      AdmReach cells pred r0 c0 r0 c0 0
  | step (r c : Int) (n : Nat) (r' c' : Int) (cell' : Cell)
      (hprev : AdmReach cells pred r0 c0 r c n)
      (hn : (r', c') ∈ hexNeighbors r c)
      (h : getCell cells r' c' = some cell') (hp : pred cell' = true) :
      AdmReach cells pred r0 c0 r' c' (n + 1)

/-- Queue invariant: every enqueued triple is the origin at distance 0 or a
hex-neighbor of an admissibly reached cell, with distances bounded. -/
def EnqOK (cells : Grid) (pred : Cell → Bool) (r0 c0 : Int) (range : Int)
    (e : Int × Int × Int) : Prop :=
  e.2.2 ≤ range ∧
  ((e.1 = r0 ∧ e.2.1 = c0 ∧ e.2.2 = 0) ∨
   (∃ rp cp n, AdmReach cells pred r0 c0 rp cp n ∧
     (e.1, e.2.1) ∈ hexNeighbors rp cp ∧ ((n : Int) + 1 ≤ e.2.2)))

/-- Result invariant: every recorded cell is admissible and admissibly
reached within the range bound. -/
def ResOK (cells : Grid) (pred : Cell → Bool) (r0 c0 : Int) (range : Int)
    (l : List Cell) : Prop :=
  ∀ cell ∈ l, pred cell = true ∧ cell.isVisible = true ∧
    ∃ r c n, getCell cells r c = some cell ∧
      AdmReach cells pred r0 c0 r c n ∧ (n : Int) ≤ range

/-- The result is, position by position, the lookup of a duplicate-free
list of visited coordinates. -/
def KeysOK (cells : Grid) (visited : List (Int × Int)) (l : List Cell) : Prop :=
  ∃ ks : List (Int × Int), ks.Nodup ∧ (∀ k ∈ ks, k ∈ visited) ∧
    List.Forall₂ (fun (k : Int × Int) (cell : Cell) =>
      getCell cells k.1 k.2 = some cell) ks l

theorem rangeLoop_sound (cells : Grid) (pred : Cell → Bool) (r0 c0 : Int) (range : Int) :
    ∀ (fuel : Nat) (queue : List (Int × Int × Int)) (visited : List (Int × Int))
      (result : List Cell),
      (∀ e ∈ queue, EnqOK cells pred r0 c0 range e) →
      ResOK cells pred r0 c0 range result →
      KeysOK cells visited result →
      ResOK cells pred r0 c0 range (rangeLoop cells pred range fuel queue visited result) ∧
      ∃ visited2, KeysOK cells visited2
        (rangeLoop cells pred range fuel queue visited result) := by
  intro fuel
  induction fuel with
  | zero =>
    intro queue visited result hq hres hkeys
    cases queue with
    | nil => exact ⟨hres, visited, hkeys⟩
    | cons e rest =>
      obtain ⟨r, c, dist⟩ := e
      exact ⟨hres, visited, hkeys⟩
  | succ fuel ih =>
    intro queue visited result hq hres hkeys
    cases queue with
    | nil => exact ⟨hres, visited, hkeys⟩
    | cons e rest =>
      obtain ⟨r, c, dist⟩ := e
      rw [rangeLoop_cons]
      have hqrest : ∀ e ∈ rest, EnqOK cells pred r0 c0 range e :=
        fun e he => hq e (List.mem_cons_of_mem _ he)
      cases hgc : getCell cells r c with
      | none => exact ih rest visited result hqrest hres hkeys
      | some cell =>
        dsimp only
        by_cases hskip : (!cell.isVisible || !pred cell) = true
        · rw [ite_cond_true hskip]
          exact ih rest visited result hqrest hres hkeys
        · rw [Bool.not_eq_true] at hskip
          rw [ite_cond_false hskip]
          obtain ⟨hv1, hp1⟩ := Bool.or_eq_false_iff.mp hskip
          have hvis : cell.isVisible = true := by simpa using hv1
          have hpred : pred cell = true := by simpa using hp1
          by_cases hvisited : visited.contains (r, c) = true
          · rw [ite_cond_true hvisited]
            exact ih rest visited result hqrest hres hkeys
          · rw [Bool.not_eq_true] at hvisited
            rw [ite_cond_false hvisited]
            obtain ⟨hdist, hsrc⟩ := hq (r, c, dist) (List.mem_cons_self _ _)
            dsimp only at hdist hsrc
            have hreach : ∃ n : Nat, AdmReach cells pred r0 c0 r c n ∧ (n : Int) ≤ dist := by
              rcases hsrc with ⟨hr0, hc0, hd0⟩ | ⟨rp, cp, n, hra, hnb, hnlt⟩
              · subst hr0
                subst hc0
                refine ⟨0, AdmReach.origin cell hgc hpred, ?_⟩
                simp only [Nat.cast_zero]
                omega
              · refine ⟨n + 1, AdmReach.step rp cp n r c cell hra hnb hgc hpred, ?_⟩
                push_cast
                push_cast at hnlt
                omega
            obtain ⟨n, hreach, hnd⟩ := hreach
            have hres' : ResOK cells pred r0 c0 range (result ++ [cell]) := by
              intro x hx
              rcases List.mem_append.mp hx with hx | hx
              · exact hres x hx
              · rcases List.mem_singleton.mp hx with rfl
                exact ⟨hpred, hvis, r, c, n, hgc, hreach, by omega⟩
            have hns : (r, c) ∉ visited := by
              intro hmem
              have : visited.contains (r, c) = true := by simpa using hmem
              rw [this] at hvisited
              cases hvisited
            have hkeys' : KeysOK cells ((r, c) :: visited) (result ++ [cell]) := by
              obtain ⟨ks, hnd2, hsub, hfa⟩ := hkeys
              refine ⟨ks ++ [(r, c)], ?_, ?_, ?_⟩
              · refine List.Nodup.append hnd2 (List.nodup_singleton _) ?_
                intro a ha hb
                rcases List.mem_singleton.mp hb with rfl
                exact hns (hsub _ ha)
              · intro k hk
                rcases List.mem_append.mp hk with hk | hk
                · exact List.mem_cons_of_mem _ (hsub k hk)
                · rcases List.mem_singleton.mp hk with rfl
                  exact List.mem_cons_self _ _
              · exact List.rel_append hfa (List.forall₂_cons.mpr ⟨hgc, List.Forall₂.nil⟩)
            by_cases hstop : range ≤ dist
            · rw [if_pos hstop]
              exact ih rest ((r, c) :: visited) (result ++ [cell]) hqrest hres' hkeys'
            · rw [if_neg hstop]
              have hqnew : ∀ e ∈ rest ++ (hexNeighbors r c).map (fun p => (p.1, p.2, dist + 1)),
                  EnqOK cells pred r0 c0 range e := by
                intro e he
                rcases List.mem_append.mp he with he | he
                · exact hqrest e he
                · obtain ⟨p, hp, rfl⟩ := List.mem_map.mp he
                  refine ⟨?_, Or.inr ⟨r, c, n, hreach, ?_, ?_⟩⟩
                  · show dist + 1 ≤ range
                    omega
                  · show ((p.1, p.2, dist + 1).1, (p.1, p.2, dist + 1).2.1) ∈ hexNeighbors r c
                    simpa using hp
                  · show (n : Int) + 1 ≤ (p.1, p.2, dist + 1).2.2
                    dsimp only
                    omega
              exact ih _ ((r, c) :: visited) (result ++ [cell]) hqnew hres' hkeys'

theorem forall2_mem_right {α β : Type} {R : α → β → Prop} {ks : List α} {l : List β}
    (h : List.Forall₂ R ks l) {b : β} (hb : b ∈ l) : ∃ k ∈ ks, R k b := by
  induction h with
  | nil => cases hb
  | cons hr htail ih =>
    rcases List.mem_cons.mp hb with rfl | hb2
    · exact ⟨_, List.mem_cons_self _ _, hr⟩
    · obtain ⟨k, hk, hRk⟩ := ih hb2
      exact ⟨k, List.mem_cons_of_mem _ hk, hRk⟩

theorem nodup_of_forall2 {α β : Type} {R : α → β → Prop} {ks : List α} {l : List β}
    (h : List.Forall₂ R ks l) (hnd : ks.Nodup)
    (hinj : ∀ k1 k2 b, R k1 b → R k2 b → k1 = k2) : l.Nodup := by
  induction h with
  | nil => exact List.nodup_nil
  | cons hr htail ih =>
    have hnd' := List.nodup_cons.mp hnd
    refine List.nodup_cons.mpr ⟨?_, ih hnd'.2⟩
    intro hbmem
    obtain ⟨k, hk, hRk⟩ := forall2_mem_right htail hbmem
    have hkeq := hinj k _ _ hRk hr
    exact hnd'.1 (hkeq ▸ hk)

/-- C3: every cell returned by `getCellsInRange` is admissible (exists, is
visible, passes the predicate) and is reached from the origin by a path of
admissible cells of length at most `range` — so a cell all of whose
admissible paths pass through an inadmissible cell is absent.  The result
is the lookup of a duplicate-free list of coordinates, and on grids whose
cells record their own coordinates (as built by `initializeCellStates`)
the returned list contains no duplicate cells. -/
theorem c3_range_soundness (cells : Grid) (pred : Cell → Bool) (r0 c0 : Int) (range : Int) :
    (∀ cell ∈ getCellsInRange cells r0 c0 range pred,
      pred cell = true ∧ cell.isVisible = true ∧
      ∃ r c n, getCell cells r c = some cell ∧
        AdmReach cells pred r0 c0 r c n ∧ (n : Int) ≤ range) ∧
    (∃ ks : List (Int × Int), ks.Nodup ∧
      List.Forall₂ (fun (k : Int × Int) (cell : Cell) =>
        getCell cells k.1 k.2 = some cell) ks (getCellsInRange cells r0 c0 range pred)) ∧
    ((∀ r c cell, getCellRaw cells r c = some cell →
        cell.rowIndex = r ∧ cell.cellIndex = c) →
      (getCellsInRange cells r0 c0 range pred).Nodup) := by
  by_cases hearly : (decide (range < 0) || !cellExists cells r0 c0) = true
  · unfold getCellsInRange
    rw [ite_cond_true hearly]
    refine ⟨?_, ⟨[], List.nodup_nil, List.Forall₂.nil⟩, fun _ => List.nodup_nil⟩
    intro cell h
    cases h
  · rw [Bool.not_eq_true] at hearly
    have hrange : 0 ≤ range := by
      obtain ⟨h1, _⟩ := Bool.or_eq_false_iff.mp hearly
      have : ¬ range < 0 := of_decide_eq_false h1
      omega
    have hq0 : ∀ e ∈ [((r0 : Int), (c0 : Int), (0 : Int))],
        EnqOK cells pred r0 c0 range e := by
      intro e he
      rcases List.mem_singleton.mp he with rfl
      exact ⟨hrange, Or.inl ⟨rfl, rfl, rfl⟩⟩
    have hres0 : ResOK cells pred r0 c0 range [] := by
      intro cell h
      cases h
    have hkeys0 : KeysOK cells [] [] :=
      ⟨[], List.nodup_nil, fun k hk => absurd hk (List.not_mem_nil k), List.Forall₂.nil⟩
    have key := rangeLoop_sound cells pred r0 c0 range (7 ^ (range.toNat + 1))
      [(r0, c0, 0)] [] [] hq0 hres0 hkeys0
    have heq : getCellsInRange cells r0 c0 range pred =
        rangeLoop cells pred range (7 ^ (range.toNat + 1)) [(r0, c0, 0)] [] [] := by
      unfold getCellsInRange
      rw [ite_cond_false hearly]
    rw [heq]
    obtain ⟨hres, visited2, ks, hnd, _, hfa⟩ := key
    refine ⟨hres, ⟨ks, hnd, hfa⟩, ?_⟩
    intro hfaithful
    refine nodup_of_forall2 hfa hnd ?_
    intro k1 k2 b h1 h2
    have hb1 := hfaithful k1.1 k1.2 b (getCell_eq_some_iff.mp h1).1
    have hb2 := hfaithful k2.1 k2.2 b (getCell_eq_some_iff.mp h2).1
    have : (k1.1, k1.2) = (k2.1, k2.2) := by
      rw [← hb1.1, ← hb1.2, ← hb2.1, ← hb2.2]
    calc k1 = (k1.1, k1.2) := rfl
      _ = (k2.1, k2.2) := this
      _ = k2 := rfl

theorem c3_range_soundness_witness :
    ((⟨0, 1, true, false, false, none⟩ : Cell) ∈
      getCellsInRange (initCells defaultGridConfig) 0 0 1 (fun cl => cl.unit = none) ∧
      ∃ r c n, getCell (initCells defaultGridConfig) r c =
          some (⟨0, 1, true, false, false, none⟩ : Cell) ∧
        AdmReach (initCells defaultGridConfig) (fun cl => cl.unit = none) 0 0 r c n ∧
        (n : Int) ≤ 1) ∧
    (getCellsInRange (initCells defaultGridConfig) 0 0 1
      (fun cl => cl.unit = none)).Nodup := by
  obtain ⟨hmem, _, hnodup⟩ := c3_range_soundness (initCells defaultGridConfig)
    (fun cl => cl.unit = none) 0 0 1
  have hin : (⟨0, 1, true, false, false, none⟩ : Cell) ∈
      getCellsInRange (initCells defaultGridConfig) 0 0 1 (fun cl => cl.unit = none) := by
    decide
  have hfaithful : ∀ r c cell, getCellRaw (initCells defaultGridConfig) r c = some cell →
      cell.rowIndex = r ∧ cell.cellIndex = c := by
    intro r c cell h
    exact ⟨(initCells_spec _ r c cell h).1, (initCells_spec _ r c cell h).2.1⟩
  exact ⟨⟨hin, (hmem _ hin).2.2⟩, hnodup hfaithful⟩

end Hexclaude
